import Mathlib

/-! Chipper: the CHIP-8 interpreter core of `internal/cpu/cpu.go`.

A shallow embedding of the `cpu` package.  Machine integers are natural
numbers; every Go operation that can wrap carries its modulus (`% 256` for
`uint8`, `% 65536` for `uint16`).  The fixed-size arrays `[32][64]uint8`,
`[16]uint8` are functions on `Fin`, the slices `ramMemory` and `stack` are
lists.  A Go run-time panic (index out of range, call of a nil callback) is a
`Fault`.  The two ambient effects of `Cycle` are made explicit: the value of
`rand.Intn(256)` is an argument, and the number of `beeper()` calls and the
"Invalid opcode" print are part of the result.
-/

namespace Chipper

/-! ## The embedding of `cpu.go` -/

/-- Run-time panics of the Go code. -/
inductive Fault where
  /-- index out of range on `cpu.ramMemory` -/
  | memory
  /-- index out of range on `cpu.stack` -/
  | stack
  /-- index out of range on `cpu.display` -/
  | display
  /-- index out of range on `cpu.key` -/
  | key
  /-- call of a nil `cpu.beeper` -/
  | beeper
  /-- slice bounds out of range in `InitCPU` -/
  | slice
  deriving DecidableEq

/-- Go `CPUOptions`; both fields are `uint16`. -/
structure CPUOptions where
  MAX_RAM_MEMORY_SIZE : Nat
  MAX_STACK_SIZE : Nat

/-- The type `[32][64]uint8` of the display: rows first, then columns. -/
abbrev Screen := Fin 32 → Fin 64 → Nat

/-- Go `CPU`.  The field `beeper` records whether the callback is non-nil;
what the callback does is outside the package. -/
structure CPU where
  display : Screen
  ramMemory : List Nat
  stack : List Nat
  variableRegister : Fin 16 → Nat
  key : Fin 16 → Nat
  opCode : Nat
  programCounter : Nat
  indexRegister : Nat
  stackPointer : Nat
  delayTimer : Nat
  soundTimer : Nat
  shouldDraw : Bool
  beeper : Bool

/-- The zero value `cpu.CPU{}`. -/
def zeroCPU : CPU where
  display := fun _ _ => 0
  ramMemory := []
  stack := []
  variableRegister := fun _ => 0
  key := fun _ => 0
  opCode := 0
  programCounter := 0
  indexRegister := 0
  stackPointer := 0
  delayTimer := 0
  soundTimer := 0
  shouldDraw := false
  beeper := false

/-- Go `fontSet`. -/
def fontSet : List Nat :=
  [0xF0, 0x90, 0x90, 0x90, 0xF0,
   0x20, 0x60, 0x20, 0x20, 0x70,
   0xF0, 0x10, 0xF0, 0x80, 0xF0,
   0xF0, 0x10, 0xF0, 0x10, 0xF0,
   0x90, 0x90, 0xF0, 0x10, 0x10,
   0xF0, 0x80, 0xF0, 0x10, 0xF0,
   0xF0, 0x80, 0xF0, 0x90, 0xF0,
   0xF0, 0x10, 0x20, 0x40, 0x40,
   0xF0, 0x90, 0xF0, 0x90, 0xF0,
   0xF0, 0x90, 0xF0, 0x10, 0xF0,
   0xF0, 0x90, 0xF0, 0x90, 0x90,
   0xE0, 0x90, 0xE0, 0x90, 0xE0,
   0xF0, 0x80, 0x80, 0x80, 0xF0,
   0xE0, 0x90, 0x90, 0x90, 0xE0,
   0xF0, 0x80, 0xF0, 0x80, 0xF0,
   0xF0, 0x80, 0xF0, 0x80, 0x80]

/-- Go `InitCPU` (value receiver: the fields it does not assign keep the
receiver's values).  `cpu.ramMemory[:len(fontSet)]` panics when the new memory
is shorter than the font table. -/
def InitCPU (cpu : CPU) (options : CPUOptions) : Except Fault CPU :=
  let ram := List.replicate options.MAX_RAM_MEMORY_SIZE 0
  if fontSet.length ≤ ram.length then
    .ok { cpu with
      ramMemory := fontSet ++ ram.drop fontSet.length
      stack := List.replicate options.MAX_STACK_SIZE 0
      shouldDraw := true
      programCounter := 0x200
      beeper := true }
  else .error .slice

/-- Go `Display`. -/
def Display (cpu : CPU) : Screen := cpu.display

/-- Go `Draw`: the returned flag and the CPU with the flag cleared. -/
def Draw (cpu : CPU) : Bool × CPU :=
  (cpu.shouldDraw, { cpu with shouldDraw := false })

/-- Go `AddBeep`; the argument says whether the function value is non-nil. -/
def AddBeep (cpu : CPU) (fn : Bool) : CPU := { cpu with beeper := fn }

/-- Assignment `a[x] = v` on a `[16]uint8`. -/
def setReg (a : Fin 16 → Nat) (x : Fin 16) (v : Nat) : Fin 16 → Nat :=
  fun k => if k = x then v else a k

/-- Assignment `d[r][c] = v` on the display. -/
def setCell (d : Screen) (r : Fin 32) (c : Fin 64) (v : Nat) : Screen :=
  fun r' c' => if r' = r ∧ c' = c then v else d r' c'

/-- Go `Key`; `num` is a `uint8`, so `cpu.key[num]` panics from 16 on. -/
def Key (cpu : CPU) (num : Nat) (down : Bool) : Except Fault CPU :=
  if h : num < 16 then
    if down then .ok { cpu with key := setReg cpu.key ⟨num, h⟩ 1 }
    else .ok { cpu with key := setReg cpu.key ⟨num, h⟩ 0 }
  else .error .key

/-- Read `cpu.ramMemory[a]`. -/
def readMem (m : List Nat) (a : Nat) : Except Fault Nat :=
  match m[a]? with
  | some b => .ok b
  | none => .error .memory

/-- Assignment `cpu.ramMemory[a] = v`. -/
def writeMem (m : List Nat) (a v : Nat) : Except Fault (List Nat) :=
  if a < m.length then .ok (m.set a v) else .error .memory

/-- The register index `(cpu.opCode & 0x0F00) >> 8`. -/
def opX (op : Nat) : Fin 16 :=
  ⟨(op &&& 0x0F00) >>> 8, by
    have h := @Nat.and_le_right op 0x0F00
    rw [Nat.shiftRight_eq_div_pow]
    omega⟩

/-- The register index `(cpu.opCode & 0x00F0) >> 4`. -/
def opY (op : Nat) : Fin 16 :=
  ⟨(op &&& 0x00F0) >>> 4, by
    have h := @Nat.and_le_right op 0x00F0
    rw [Nat.shiftRight_eq_div_pow]
    omega⟩

/-- What the `switch` of `Cycle` leaves behind: the state, whether the
`FX0A` branch returned from `Cycle` (before the timer tick), and whether
"Invalid opcode" was printed. -/
structure Executed where
  cpu : CPU
  early : Bool
  invalid : Bool

/-- A branch that falls out of the `switch` normally. -/
def done (cpu : CPU) : Except Fault Executed :=
  .ok { cpu := cpu, early := false, invalid := false }

/-- Statement `cpu.programCounter = cpu.programCounter + n` (`uint16`). -/
def advance (cpu : CPU) (n : Nat) : CPU :=
  { cpu with programCounter := (cpu.programCounter + n) % 65536 }

/-- The `default` branches: `fmt.Printf("Invalid opcode %X\n", cpu.opCode)`. -/
def invalidOp (cpu : CPU) : Except Fault Executed :=
  .ok { cpu := cpu, early := false, invalid := true }

/-- The fetch: `(uint16(ram[pc]) << 8) | uint16(ram[pc+1])`. -/
def fetch (cpu : CPU) : Except Fault Nat := do
  let hi ← readMem cpu.ramMemory cpu.programCounter
  let lo ← readMem cpu.ramMemory ((cpu.programCounter + 1) % 65536)
  pure (((hi <<< 8) % 65536) ||| lo)

/-- Family `0x0000`, dispatched on `cpu.opCode & 0x000F`. -/
def exec0 (cpu : CPU) : Except Fault Executed :=
  let op := cpu.opCode
  if op &&& 0x000F = 0x0000 then
    done (advance { cpu with display := fun _ _ => 0, shouldDraw := true } 2)
  else if op &&& 0x000F = 0x000E then
    let sp := (cpu.stackPointer + 65535) % 65536
    match cpu.stack[sp]? with
    | some ret =>
      done (advance { cpu with stackPointer := sp, programCounter := ret } 2)
    | none => .error .stack
  else invalidOp cpu

/-- Family `0x8000`, dispatched on `cpu.opCode & 0x000F`.  The statements of a
branch run in order, each on the registers the previous one left. -/
def exec8 (cpu : CPU) : Except Fault Executed :=
  let op := cpu.opCode
  let X := opX op
  let Y := opY op
  let V := cpu.variableRegister
  let low := op &&& 0x000F
  if low = 0x0000 then
    done (advance { cpu with variableRegister := setReg V X (V Y) } 2)
  else if low = 0x0001 then
    done (advance { cpu with variableRegister := setReg V X (V X ||| V Y) } 2)
  else if low = 0x0002 then
    done (advance { cpu with variableRegister := setReg V X (V X &&& V Y) } 2)
  else if low = 0x0003 then
    done (advance { cpu with variableRegister := setReg V X (V X ^^^ V Y) } 2)
  else if low = 0x0004 then
    let V1 := if V Y > 0xFF - V X then setReg V 0xF 1 else setReg V 0xF 0
    done (advance { cpu with variableRegister := setReg V1 X ((V1 X + V1 Y) % 256) } 2)
  else if low = 0x0005 then
    let V1 := if V Y > V X then setReg V 0xF 0 else setReg V 0xF 1
    done (advance { cpu with
      variableRegister := setReg V1 X ((V1 X + 256 - V1 Y) % 256) } 2)
  else if low = 0x0006 then
    let V1 := setReg V 0xF (V X &&& 0x1)
    done (advance { cpu with variableRegister := setReg V1 X (V1 X >>> 1) } 2)
  else if low = 0x0007 then
    let V1 := if V X > V Y then setReg V 0xF 0 else setReg V 0xF 1
    done (advance { cpu with
      variableRegister := setReg V1 X ((V1 Y + 256 - V1 X) % 256) } 2)
  else if low = 0x000E then
    let V1 := setReg V 0xF (V X >>> 7)
    done (advance { cpu with variableRegister := setReg V1 X ((V1 X <<< 1) % 256) } 2)
  else invalidOp cpu

/-- One pass of the inner loop of `DXYN` (column `i` of row `j`) on the pair
(display, VF); `x` and `y` are the `uint8` values read before the loops. -/
def drawPixel (x y pixel j i : Nat) (st : Screen × Nat) : Except Fault (Screen × Nat) :=
  if pixel &&& (0x80 >>> i) ≠ 0 then
    let r := (y + j % 256) % 256
    let c := (x + i % 256) % 256
    if hr : r < 32 then
      if hc : c < 64 then
        let vf := if st.1 ⟨r, hr⟩ ⟨c, hc⟩ = 1 then 1 else st.2
        .ok (setCell st.1 ⟨r, hr⟩ ⟨c, hc⟩ (st.1 ⟨r, hr⟩ ⟨c, hc⟩ ^^^ 1), vf)
      else .error .display
    else .error .display
  else .ok st

/-- One pass of the outer loop of `DXYN`: row `j`. -/
def drawRow (mem : List Nat) (I x y : Nat) (st : Screen × Nat) (j : Nat) :
    Except Fault (Screen × Nat) := do
  let pixel ← readMem mem ((I + j) % 65536)
  (List.range 8).foldlM (fun st i => drawPixel x y pixel j i st) st

/-- The two loops of `DXYN` for a sprite of `h` rows. -/
def drawSprite (mem : List Nat) (I x y h : Nat) (st : Screen × Nat) :
    Except Fault (Screen × Nat) :=
  (List.range h).foldlM (drawRow mem I x y) st

/-- Family `0xD000`: `x` and `y` are read, then VF is cleared, then the
sprite is drawn. -/
def execD (cpu : CPU) : Except Fault Executed := do
  let op := cpu.opCode
  let x := cpu.variableRegister (opX op)
  let y := cpu.variableRegister (opY op)
  let h := op &&& 0x000F
  let st ← drawSprite cpu.ramMemory cpu.indexRegister x y h (cpu.display, 0)
  done (advance { cpu with
    display := st.1
    variableRegister := setReg cpu.variableRegister 0xF st.2
    shouldDraw := true } 2)

/-- Read `cpu.key[v]` for a `uint8` value `v`. -/
def readKey (key : Fin 16 → Nat) (v : Nat) : Except Fault Nat :=
  if h : v < 16 then .ok (key ⟨v, h⟩) else .error .key

/-- Family `0xE000`, dispatched on `cpu.opCode & 0x00FF`. -/
def execE (cpu : CPU) : Except Fault Executed := do
  let op := cpu.opCode
  let low := op &&& 0x00FF
  if low = 0x009E then
    let k ← readKey cpu.key (cpu.variableRegister (opX op))
    if k = 1 then done (advance cpu 4) else done (advance cpu 2)
  else if low = 0x00A1 then
    let k ← readKey cpu.key (cpu.variableRegister (opX op))
    if k = 0 then done (advance cpu 4) else done (advance cpu 2)
  else invalidOp cpu

/-- The key scan of `FX0A` on the pair (registers, `pressed`): every pressed
key overwrites VX, in ascending order. -/
def scanKeys (key : Fin 16 → Nat) (X : Fin 16) (st : (Fin 16 → Nat) × Bool) :
    (Fin 16 → Nat) × Bool :=
  (List.finRange 16).foldl
    (fun st i => if key i ≠ 0 then (setReg st.1 X i.val, true) else st) st

/-- The loop of `FX55`: `ram[uint16(i)+I] = V[i]` for `i` from 0 to X. -/
def storeRegs (V : Fin 16 → Nat) (I : Nat) (X : Fin 16) (mem : List Nat) :
    Except Fault (List Nat) :=
  ((List.finRange 16).take (X.val + 1)).foldlM
    (fun m i => writeMem m ((i.val + I) % 65536) (V i)) mem

/-- The loop of `FX65`: `V[i] = ram[I+uint16(i)]` for `i` from 0 to X. -/
def loadRegs (mem : List Nat) (I : Nat) (X : Fin 16) (V : Fin 16 → Nat) :
    Except Fault (Fin 16 → Nat) :=
  ((List.finRange 16).take (X.val + 1)).foldlM
    (fun V i => do
      let b ← readMem mem ((I + i.val) % 65536)
      pure (setReg V i b)) V

/-- Family `0xF000`, dispatched on `cpu.opCode & 0x00FF`. -/
def execF (cpu : CPU) : Except Fault Executed := do
  let op := cpu.opCode
  let X := opX op
  let V := cpu.variableRegister
  let low := op &&& 0x00FF
  if low = 0x0007 then
    done (advance { cpu with variableRegister := setReg V X cpu.delayTimer } 2)
  else if low = 0x000A then
    let st := scanKeys cpu.key X (V, false)
    if !st.2 then
      .ok { cpu := { cpu with variableRegister := st.1 }, early := true, invalid := false }
    else done (advance { cpu with variableRegister := st.1 } 2)
  else if low = 0x0015 then
    done (advance { cpu with delayTimer := V X } 2)
  else if low = 0x0018 then
    done (advance { cpu with soundTimer := V X } 2)
  else if low = 0x001E then
    let V1 := if (cpu.indexRegister + V X) % 65536 > 0xFFF then setReg V 0xF 1
              else setReg V 0xF 0
    done (advance { cpu with
      variableRegister := V1
      indexRegister := (cpu.indexRegister + V1 X) % 65536 } 2)
  else if low = 0x0029 then
    done (advance { cpu with indexRegister := (V X * 0x5) % 65536 } 2)
  else if low = 0x0033 then
    let I := cpu.indexRegister
    let m1 ← writeMem cpu.ramMemory I (V X / 100)
    let m2 ← writeMem m1 ((I + 1) % 65536) ((V X / 10) % 10)
    let m3 ← writeMem m2 ((I + 2) % 65536) ((V X % 100) / 10)
    done (advance { cpu with ramMemory := m3 } 2)
  else if low = 0x0055 then
    let m ← storeRegs V cpu.indexRegister X cpu.ramMemory
    done (advance { cpu with ramMemory := m, indexRegister := (X.val + 1) % 65536 } 2)
  else if low = 0x0065 then
    let V1 ← loadRegs cpu.ramMemory cpu.indexRegister X V
    done (advance { cpu with
      variableRegister := V1, indexRegister := (X.val + 1) % 65536 } 2)
  else invalidOp cpu

/-- The outer `switch cpu.opCode & 0xF000` of `Cycle`; `rnd` is the value
`rand.Intn(256)` returns. -/
def execute (rnd : Nat) (cpu : CPU) : Except Fault Executed :=
  let op := cpu.opCode
  let X := opX op
  let Y := opY op
  let V := cpu.variableRegister
  let fam := op &&& 0xF000
  if fam = 0x0000 then exec0 cpu
  else if fam = 0x1000 then
    done { cpu with programCounter := op &&& 0x0FFF }
  else if fam = 0x2000 then
    if cpu.stackPointer < cpu.stack.length then
      done { cpu with
        stack := cpu.stack.set cpu.stackPointer cpu.programCounter
        stackPointer := (cpu.stackPointer + 1) % 65536
        programCounter := op &&& 0x0FFF }
    else .error .stack
  else if fam = 0x3000 then
    if V X = op &&& 0x00FF then done (advance cpu 4) else done (advance cpu 2)
  else if fam = 0x4000 then
    if V X ≠ op &&& 0x00FF then done (advance cpu 4) else done (advance cpu 2)
  else if fam = 0x5000 then
    if V X = V Y then done (advance cpu 4) else done (advance cpu 2)
  else if fam = 0x6000 then
    done (advance { cpu with variableRegister := setReg V X ((op &&& 0x00FF) % 256) } 2)
  else if fam = 0x7000 then
    done (advance { cpu with
      variableRegister := setReg V X ((V X + (op &&& 0x00FF) % 256) % 256) } 2)
  else if fam = 0x8000 then exec8 cpu
  else if fam = 0x9000 then
    if V X ≠ V Y then done (advance cpu 4) else done (advance cpu 2)
  else if fam = 0xA000 then
    done (advance { cpu with indexRegister := op &&& 0x0FFF } 2)
  else if fam = 0xB000 then
    done { cpu with programCounter := ((op &&& 0x0FFF) + V 0x0) % 65536 }
  else if fam = 0xC000 then
    done (advance { cpu with
      variableRegister := setReg V X ((rnd % 256) &&& ((op &&& 0x00FF) % 256)) } 2)
  else if fam = 0xD000 then execD cpu
  else if fam = 0xE000 then execE cpu
  else if fam = 0xF000 then execF cpu
  else invalidOp cpu

/-- The result of one `Cycle`: the state, how often `cpu.beeper()` was
called, and whether "Invalid opcode" was printed. -/
structure Outcome where
  cpu : CPU
  beeps : Nat
  invalid : Bool

/-- The timer tick at the end of `Cycle`, with the number of `beeper()` calls. -/
def tick (cpu : CPU) : Except Fault (CPU × Nat) :=
  let c1 := if cpu.delayTimer > 0 then { cpu with delayTimer := cpu.delayTimer - 1 } else cpu
  if c1.soundTimer > 0 then
    if c1.soundTimer = 1 then
      if c1.beeper then .ok ({ c1 with soundTimer := c1.soundTimer - 1 }, 1)
      else .error .beeper
    else .ok ({ c1 with soundTimer := c1.soundTimer - 1 }, 0)
  else .ok (c1, 0)

/-- Go `Cycle`: fetch, the `switch`, then (unless `FX0A` returned) the tick. -/
def Cycle (rnd : Nat) (cpu : CPU) : Except Fault Outcome := do
  let op ← fetch cpu
  let e ← execute rnd { cpu with opCode := op }
  if e.early then
    pure { cpu := e.cpu, beeps := 0, invalid := e.invalid }
  else
    let t ← tick e.cpu
    pure { cpu := t.1, beeps := t.2, invalid := e.invalid }

/-- A run of `n` consecutive calls of `Cycle`, nothing else touching the CPU in
between; `rnd k` is the random byte of call `k`.  The result is the last
state and the total number of `beeper()` calls. -/
def cycles (rnd : Nat → Nat) : Nat → CPU → Except Fault (CPU × Nat)
  | 0, cpu => .ok (cpu, 0)
  | n + 1, cpu => do
    let o ← Cycle (rnd 0) cpu
    let r ← cycles (fun k => rnd (k + 1)) n o.cpu
    pure (r.1, o.beeps + r.2)

/-- The error values `LoadProgram` returns; opening, inspecting and reading
the file are outside the embedding, the file is its list of bytes. -/
inductive LoadError where
  /-- `fmt.Errorf("Program size bigger than memory")` -/
  | tooBig
  deriving DecidableEq

/-- The loop of `LoadProgram` from index `i` on: `ram[i+512] = buffer[i]`. -/
def copyProgram (m : List Nat) (i : Nat) : List Nat → Except Fault (List Nat)
  | [] => .ok m
  | b :: rest => do
    let m1 ← writeMem m (i + 512) b
    copyProgram m1 (i + 1) rest

/-- Go `LoadProgram` on a file whose content is `buffer`: the state it leaves
and the error it returns.  The size test is on Go `int`s, so
`len(cpu.ramMemory) - 512` can be negative. -/
def LoadProgram (cpu : CPU) (buffer : List Nat) : Except Fault (CPU × Option LoadError) :=
  if (cpu.ramMemory.length : Int) - 512 < (buffer.length : Int) then
    .ok (cpu, some .tooBig)
  else do
    let m ← copyProgram cpu.ramMemory 0 buffer
    pure ({ cpu with ramMemory := m }, none)

/-! ## Predicates in which the claims are stated -/

/-- Memory `m` holds the instruction word `w` at `a`: the high byte at `a`,
the low byte at `a + 1`. -/
def holdsWord (m : List Nat) (a w : Nat) : Prop :=
  m[a]? = some (w / 256) ∧ m[a + 1]? = some (w % 256)

instance (m : List Nat) (a w : Nat) : Decidable (holdsWord m a w) := by
  unfold holdsWord
  infer_instance

/-- The state `n` consecutive calls of `Cycle` leave, when they all complete
(random bytes all 0). -/
def afterCycles (n : Nat) (cpu : CPU) : Option CPU :=
  match cycles (fun _ => 0) n cpu with
  | .ok r => some r.1
  | .error _ => none

/-- The patterns of the operation table of the specification, read on the hex
digits of a word: `a` the first digit, `n` the last, `nn` the low byte. -/
def matchesTable (w : Nat) : Prop :=
  let a := w / 4096 % 16
  let n := w % 16
  let nn := w % 256
  w = 0x00E0 ∨ w = 0x00EE ∨ a = 1 ∨ a = 2 ∨ a = 3 ∨ a = 4 ∨ (a = 5 ∧ n = 0) ∨ a = 6 ∨ a = 7 ∨
  (a = 8 ∧ (n ≤ 7 ∨ n = 0xE)) ∨ (a = 9 ∧ n = 0) ∨ a = 0xA ∨ a = 0xB ∨ a = 0xC ∨ a = 0xD ∨
  (a = 0xE ∧ (nn = 0x9E ∨ nn = 0xA1)) ∨
  (a = 0xF ∧ (nn = 0x07 ∨ nn = 0x0A ∨ nn = 0x15 ∨ nn = 0x18 ∨ nn = 0x1E ∨ nn = 0x29 ∨
    nn = 0x33 ∨ nn = 0x55 ∨ nn = 0x65))

instance (w : Nat) : Decidable (matchesTable w) := by
  unfold matchesTable
  infer_instance

/-- The words the `switch` decodes on fewer digits than the table's patterns:
family 0 looks at the last digit only (0 or E), families 5 and 9 at none. -/
def decodedLoosely (w : Nat) : Prop :=
  (w / 4096 % 16 = 0 ∧ (w % 16 = 0 ∨ w % 16 = 0xE)) ∨ w / 4096 % 16 = 5 ∨ w / 4096 % 16 = 9

instance (w : Nat) : Decidable (decodedLoosely w) := by
  unfold decodedLoosely
  infer_instance

/-- Row `j`, column `i` of the sprite stored at `I` is set: bit `i`, counted
from the most significant bit, of the byte at `I + j`. -/
def spriteBit (mem : List Nat) (I j i : Nat) : Prop :=
  (mem.getD (I + j) 0).testBit (7 - i) = true

instance (mem : List Nat) (I j i : Nat) : Decidable (spriteBit mem I j i) := by
  unfold spriteBit
  infer_instance

/-- Each of the `k` cycles of the run from `cpu` completes, and none of them
executes `FX18` or an `FX0A` while no key is pressed. -/
def quietRun (rnd : Nat → Nat) : Nat → CPU → Prop
  | 0, _ => True
  | k + 1, cpu =>
    ∃ w o, fetch cpu = .ok w ∧
      ¬(w / 4096 % 16 = 0xF ∧ w % 256 = 0x18) ∧
      ¬(w / 4096 % 16 = 0xF ∧ w % 256 = 0x0A ∧ ∀ i, cpu.key i = 0) ∧
      Cycle (rnd 0) cpu = .ok o ∧
      quietRun (fun n => rnd (n + 1)) k o.cpu

/-- The states reachable from `InitCPU` on a zero-valued CPU by calls of
`Cycle`, `Key`, `Draw` and `LoadProgram` that do not panic. -/
inductive Reachable : CPU → Prop where
  | init (options : CPUOptions) (s : CPU) :
      InitCPU zeroCPU options = .ok s → Reachable s
  | cycle (rnd : Nat) (s : CPU) (o : Outcome) :
      Reachable s → Cycle rnd s = .ok o → Reachable o.cpu
  | key (num : Nat) (down : Bool) (s s' : CPU) :
      Reachable s → Key s num down = .ok s' → Reachable s'
  | draw (s : CPU) : Reachable s → Reachable (Draw s).2
  | load (buffer : List Nat) (s s' : CPU) (err : Option LoadError) :
      Reachable s → LoadProgram s buffer = .ok (s', err) → Reachable s'

/-- Every cell of the display holds 0 or 1. -/
def BinaryScreen (d : Screen) : Prop := ∀ r c, d r c = 0 ∨ d r c = 1

/-! ## Predicates used in the proofs -/

/-- Every result of `r` satisfies `Q`. -/
def Ensures (r : Except Fault Executed) (Q : Executed → Prop) : Prop :=
  ∀ e, r = .ok e → Q e

/-- The branch does not return early and leaves both timers as they are in `c`. -/
def KeepsTimers (c : CPU) (e : Executed) : Prop :=
  e.early = false ∧ e.cpu.delayTimer = c.delayTimer ∧ e.cpu.soundTimer = c.soundTimer

/-- What family `0xF000` does to the timers: only `FX0A` with no key pressed
returns early, only `FX15` writes the delay timer, only `FX18` the sound timer. -/
def TimersF (c : CPU) (e : Executed) : Prop :=
  (e.early = true ↔ (c.opCode &&& 0x00FF = 0x000A ∧ ∀ k, c.key k = 0)) ∧
  (c.opCode &&& 0x00FF ≠ 0x0015 → e.cpu.delayTimer = c.delayTimer) ∧
  (c.opCode &&& 0x00FF ≠ 0x0018 → e.cpu.soundTimer = c.soundTimer)

/-- What the `switch` does to the timers. -/
def TimersAll (c : CPU) (e : Executed) : Prop :=
  (e.early = true ↔
    (c.opCode &&& 0xF000 = 0xF000 ∧ c.opCode &&& 0x00FF = 0x000A ∧ ∀ k, c.key k = 0)) ∧
  (¬(c.opCode &&& 0xF000 = 0xF000 ∧ c.opCode &&& 0x00FF = 0x0015) →
    e.cpu.delayTimer = c.delayTimer) ∧
  (¬(c.opCode &&& 0xF000 = 0xF000 ∧ c.opCode &&& 0x00FF = 0x0018) →
    e.cpu.soundTimer = c.soundTimer)

/-- Cell (`r`, `c`) is the target of a set bit among the first `m` columns of
row `j` of a sprite at (`x`, `y`) whose row byte is `p`; the bit test is the
code's. -/
def rowHit (x y p j m : Nat) (r : Fin 32) (c : Fin 64) : Prop :=
  r.val = y + j ∧ x ≤ c.val ∧ c.val < x + m ∧ p &&& (0x80 >>> (c.val - x)) ≠ 0

instance (x y p j m : Nat) (r : Fin 32) (c : Fin 64) : Decidable (rowHit x y p j m r c) := by
  unfold rowHit
  infer_instance

/-- Cell (`r`, `c`) is the target of a set bit in the first `n` rows of the
sprite stored at `I` and drawn at (`x`, `y`). -/
def hits (mem : List Nat) (I x y n : Nat) (r : Fin 32) (c : Fin 64) : Prop :=
  y ≤ r.val ∧ r.val < y + n ∧ x ≤ c.val ∧ c.val < x + 8 ∧
    mem.getD (I + (r.val - y)) 0 &&& (0x80 >>> (c.val - x)) ≠ 0

instance (mem : List Nat) (I x y n : Nat) (r : Fin 32) (c : Fin 64) :
    Decidable (hits mem I x y n r c) := by
  unfold hits
  infer_instance

/-! ## Concrete machines -/

/-- A machine as `InitCPU` builds it from 4096 bytes of memory and 16 stack
entries, with the program bytes `prog` at 0x200. -/
def loaded (prog : List Nat) : CPU :=
  { zeroCPU with
    ramMemory := fontSet ++ List.replicate 432 0 ++ prog ++ List.replicate (3584 - prog.length) 0
    stack := List.replicate 16 0
    shouldDraw := true
    programCounter := 0x200
    beeper := true }

/-- The program `60EA A300 F033`: V0 := 234, I := 0x300, then the BCD store. -/
def bcdProgram : List Nat := [0x60, 0xEA, 0xA3, 0x00, 0xF0, 0x33]

/-- The program `F30A` with no key pressed and both timers running. -/
def idleState : CPU :=
  { loaded [0xF3, 0x0A] with delayTimer := 5, soundTimer := 7 }

/-- The program `00E0` with both timers running. -/
def timerState : CPU :=
  { loaded [0x00, 0xE0] with delayTimer := 5, soundTimer := 1 }

/-- The program `F30A` with keys 2 and 9 pressed. -/
def keyState : CPU :=
  { loaded [0xF3, 0x0A] with key := setReg (setReg (fun _ => 0) 2 1) 9 1 }

/-- The program `0001` (no such instruction) with a lit cell and both timers
running. -/
def unknownState : CPU :=
  { loaded [0x00, 0x01] with
    display := setCell (fun _ _ => 0) 3 5 1
    delayTimer := 5
    soundTimer := 1 }

/-- The program `8004` (add V0 to V0) with V0 = 1. -/
def addSelfState : CPU :=
  { loaded [0x80, 0x04] with variableRegister := setReg (fun _ => 0) 0 1 }

/-- The program `8124` with V1 = 0xFF and V2 = 0x01. -/
def addState : CPU :=
  { loaded [0x81, 0x24] with variableRegister := setReg (setReg (fun _ => 0) 1 0xFF) 2 0x01 }

/-- The program `8125` with V1 = 0x01 and V2 = 0x02. -/
def subState : CPU :=
  { loaded [0x81, 0x25] with variableRegister := setReg (setReg (fun _ => 0) 1 0x01) 2 0x02 }

/-- The program `D125 D125` (draw twice the 5 rows at I = 0, the glyph "0" of
the font, at column V1 = 3 and row V2 = 4) on an empty display. -/
def drawState : CPU :=
  { loaded [0xD1, 0x25, 0xD1, 0x25] with
    variableRegister := setReg (setReg (fun _ => 0) 1 3) 2 4
    indexRegister := 0 }

/-- The program `2204 0000 00EE`: a call of the subroutine at 0x204, which
returns at once. -/
def callState : CPU := loaded [0x22, 0x04, 0x00, 0x00, 0x00, 0xEE]

/-- The program `00E0 00E0 00E0` on a display with one lit cell and the
redraw flag already polled. -/
def clearState : CPU :=
  { loaded [0x00, 0xE0, 0x00, 0xE0, 0x00, 0xE0] with
    display := setCell (fun _ _ => 0) 3 5 1
    shouldDraw := false }

/-- The program `F255` with V0, V1, V2 = 7, 8, 9 and I = 0x300. -/
def storeState : CPU :=
  { loaded [0xF2, 0x55] with
    variableRegister := setReg (setReg (setReg (fun _ => 0) 0 7) 1 8) 2 9
    indexRegister := 0x300 }

/-- The program `00E0 00E0 00E0` with the sound timer at 2. -/
def beepState : CPU :=
  { loaded [0x00, 0xE0, 0x00, 0xE0, 0x00, 0xE0] with soundTimer := 2 }

/-- The program `D125` at column V1 = 3, row V2 = 4 with I = 0, on a display
whose cell (4, 3) is already lit, and VF = 7. -/
def redrawState : CPU :=
  { loaded [0xD1, 0x25] with
    display := setCell (fun _ _ => 0) 4 3 1
    variableRegister := setReg (setReg (setReg (fun _ => 0) 1 3) 2 4) 0xF 7
    indexRegister := 0 }

/-- The program `D012` with V0 = 0, V1 = 255 and I = 0x1FF: the two sprite rows
are the zero byte at 0x1FF and the first program byte 0xD0. -/
def wrapState : CPU :=
  { loaded [0xD0, 0x12] with
    variableRegister := setReg (fun _ => 0) 1 255
    indexRegister := 0x1FF }

/-- The program `D125` at column V1 = 61, row V2 = 4 with I = 0. -/
def edgeState : CPU :=
  { loaded [0xD1, 0x25] with
    variableRegister := setReg (setReg (fun _ => 0) 1 61) 2 4
    indexRegister := 0 }

/-- The program `81F4` (add VF to V1) with V1 = 1 and VF = 5. -/
def flagState : CPU :=
  { loaded [0x81, 0xF4] with variableRegister := setReg (setReg (fun _ => 0) 1 1) 0xF 5 }

/-- The program `8116` (shift V1, with Y = X) with V1 = 2. -/
def shiftSelfState : CPU :=
  { loaded [0x81, 0x16] with variableRegister := setReg (fun _ => 0) 1 2 }

/-- The program `8126` with V1 = 5 and V2 = 9. -/
def shiftState : CPU :=
  { loaded [0x81, 0x26] with variableRegister := setReg (setReg (fun _ => 0) 1 5) 2 9 }

/-! ## Decoding, fetch and tick; the single instructions -/

theorem shiftRight_and (a b i : Nat) : (a &&& b) >>> i = (a >>> i) &&& (b >>> i) := by
  apply Nat.eq_of_testBit_eq; intro j; simp

theorem and_F000 (op : Nat) : op &&& 0xF000 = op / 4096 % 16 * 4096 := by
  have h1 : (op &&& 0xF000) >>> 12 = op / 4096 % 16 := by
    rw [shiftRight_and, Nat.shiftRight_eq_div_pow]
    exact Nat.and_pow_two_sub_one_eq_mod _ 4
  have h2 : (op &&& 0xF000) % 4096 = 0 := by
    rw [← Nat.and_pow_two_sub_one_eq_mod _ 12, Nat.and_assoc]
    have h0 : (61440 &&& 2 ^ 12 - 1) = 0 := by decide
    rw [h0]; simp
  rw [Nat.shiftRight_eq_div_pow] at h1
  omega

theorem and_000F (op : Nat) : op &&& 0x000F = op % 16 :=
  Nat.and_pow_two_sub_one_eq_mod _ 4

theorem and_00FF (op : Nat) : op &&& 0x00FF = op % 256 :=
  Nat.and_pow_two_sub_one_eq_mod _ 8

theorem and_0FFF (op : Nat) : op &&& 0x0FFF = op % 4096 :=
  Nat.and_pow_two_sub_one_eq_mod _ 12

theorem opX_val (op : Nat) : (opX op).val = op / 256 % 16 := by
  show (op &&& 0x0F00) >>> 8 = _
  rw [shiftRight_and, Nat.shiftRight_eq_div_pow]
  exact Nat.and_pow_two_sub_one_eq_mod _ 4

theorem opY_val (op : Nat) : (opY op).val = op / 16 % 16 := by
  show (op &&& 0x00F0) >>> 4 = _
  rw [shiftRight_and, Nat.shiftRight_eq_div_pow]
  exact Nat.and_pow_two_sub_one_eq_mod _ 4

theorem word_eq (hi lo : Nat) (h2 : lo < 256) (h1 : hi < 256) :
    ((hi <<< 8) % 65536) ||| lo = hi * 256 + lo := by
  rw [Nat.shiftLeft_eq, Nat.mod_eq_of_lt (by omega)]
  have h := Nat.mul_add_lt_is_or (i := 8) (b := lo) (by omega) hi
  rw [Nat.mul_comm] at h
  simpa using h.symm

theorem holdsWord_bound {m : List Nat} {a w : Nat} (hw : holdsWord m a w) :
    a + 1 < m.length := by
  have h := hw.2
  rw [List.getElem?_eq_some] at h
  exact h.1

theorem fetch_eq (s : CPU) (w : Nat) (hlen : s.ramMemory.length ≤ 65535) (hlt : w < 65536)
    (hw : holdsWord s.ramMemory s.programCounter w) : fetch s = .ok w := by
  have hb := holdsWord_bound hw
  have hmod : (s.programCounter + 1) % 65536 = s.programCounter + 1 :=
    Nat.mod_eq_of_lt (by omega)
  have hword := word_eq (w / 256) (w % 256) (by omega) (by omega)
  simp only [fetch, readMem, hw.1, hmod, hw.2, hword, bind, Except.bind, pure, Except.pure]
  congr 1
  omega

theorem Cycle_eq (rnd : Nat) (s : CPU) (w : Nat) (h : fetch s = .ok w) :
    Cycle rnd s =
      match execute rnd { s with opCode := w } with
      | .ok e =>
        if e.early then .ok { cpu := e.cpu, beeps := 0, invalid := e.invalid }
        else match tick e.cpu with
          | .ok t => .ok { cpu := t.1, beeps := t.2, invalid := e.invalid }
          | .error f => .error f
      | .error f => .error f := by
  simp only [Cycle, h, bind, Except.bind, pure, Except.pure]
  cases execute rnd { s with opCode := w } with
  | error f => rfl
  | ok e =>
    simp only
    split
    · rfl
    · cases tick e.cpu <;> rfl

theorem tick_eq (c : CPU) (hb : c.beeper = true) :
    tick c = .ok ({ c with delayTimer := c.delayTimer - 1, soundTimer := c.soundTimer - 1 },
      if c.soundTimer = 1 then 1 else 0) := by
  obtain ⟨d, m, st, V, k, o, pc, I, sp, dt, stm, sd, b⟩ := c
  simp only at hb
  subst hb
  unfold tick
  by_cases h1 : dt > 0 <;> by_cases h2 : stm > 0 <;> by_cases h3 : stm = 1 <;>
    simp [h1, h2, h3] <;> omega

/-- The scan of a list of keys none of which is pressed changes nothing. -/
theorem scan_none (key : Fin 16 → Nat) (X : Fin 16) (l : List (Fin 16))
    (st : (Fin 16 → Nat) × Bool) (h : ∀ k ∈ l, key k = 0) :
    l.foldl (fun st i => if key i ≠ 0 then (setReg st.1 X i.val, true) else st) st = st := by
  induction l generalizing st with
  | nil => rfl
  | cons a l ih =>
    have ha : key a = 0 := h a (List.mem_cons_self _ _)
    simp only [List.foldl_cons, ha, ne_eq, not_true_eq_false, if_false]
    exact ih st (fun k hk => h k (List.mem_cons_of_mem _ hk))

theorem setReg_setReg (V : Fin 16 → Nat) (X : Fin 16) (a b : Nat) :
    setReg (setReg V X a) X b = setReg V X b := by
  funext k; simp only [setReg]; split <;> rfl

/-- The scan of an ascending list with a pressed key ends with the greatest
pressed key of the list in VX. -/
theorem scan_some (key : Fin 16 → Nat) (X : Fin 16) (l : List (Fin 16))
    (hs : l.Pairwise (fun a b => a < b)) (V : Fin 16 → Nat) (b : Bool)
    (h : ∃ k ∈ l, key k ≠ 0) :
    ∃ k ∈ l, key k ≠ 0 ∧ (∀ j ∈ l, key j ≠ 0 → j ≤ k) ∧
      l.foldl (fun st i => if key i ≠ 0 then (setReg st.1 X i.val, true) else st) (V, b)
        = (setReg V X k.val, true) := by
  induction l generalizing V b with
  | nil => obtain ⟨k, hk, _⟩ := h; cases hk
  | cons a l ih =>
    rw [List.pairwise_cons] at hs
    by_cases hl : ∃ k ∈ l, key k ≠ 0
    · by_cases ha : key a ≠ 0
      · obtain ⟨k, hk, hk0, hmax, hf⟩ := ih hs.2 (setReg V X a.val) true hl
        refine ⟨k, List.mem_cons_of_mem _ hk, hk0, ?_, ?_⟩
        · intro j hj hj0
          rcases List.mem_cons.1 hj with rfl | hj
          · exact le_of_lt (hs.1 k hk)
          · exact hmax j hj hj0
        · simp only [List.foldl_cons, ha, if_true, ne_eq, not_false_eq_true]
          simp only [ne_eq] at hf
          rw [hf, setReg_setReg]
      · obtain ⟨k, hk, hk0, hmax, hf⟩ := ih hs.2 V b hl
        refine ⟨k, List.mem_cons_of_mem _ hk, hk0, ?_, ?_⟩
        · intro j hj hj0
          rcases List.mem_cons.1 hj with rfl | hj
          · exact absurd hj0 ha
          · exact hmax j hj hj0
        · simp only [List.foldl_cons, ha, if_false]
          exact hf
    · have hl0 : ∀ k ∈ l, key k = 0 := by
        intro k hk
        by_contra hne
        exact hl ⟨k, hk, hne⟩
      obtain ⟨k, hk, hk0⟩ := h
      rcases List.mem_cons.1 hk with rfl | hk
      · refine ⟨k, List.mem_cons_self _ _, hk0, ?_, ?_⟩
        · intro j hj hj0
          rcases List.mem_cons.1 hj with rfl | hj
          · exact le_refl _
          · exact absurd (hl0 j hj) hj0
        · simp only [List.foldl_cons, hk0, if_true, ne_eq, not_false_eq_true]
          exact scan_none key X l _ hl0
      · exact absurd (hl0 k hk) hk0

theorem scanKeys_none (key : Fin 16 → Nat) (X : Fin 16) (st : (Fin 16 → Nat) × Bool)
    (h : ∀ k, key k = 0) : scanKeys key X st = st :=
  scan_none key X _ st (fun k _ => h k)

theorem scanKeys_some (key : Fin 16 → Nat) (X : Fin 16) (V : Fin 16 → Nat) (b : Bool)
    (h : ∃ k, key k ≠ 0) :
    ∃ k, key k ≠ 0 ∧ (∀ j, key j ≠ 0 → j ≤ k) ∧
      scanKeys key X (V, b) = (setReg V X k.val, true) := by
  obtain ⟨k0, hk0⟩ := h
  obtain ⟨k, _, hk, hmax, hf⟩ :=
    scan_some key X (List.finRange 16) (List.pairwise_lt_finRange 16) V b
      ⟨k0, List.mem_finRange _, hk0⟩
  exact ⟨k, hk, fun j hj => hmax j (List.mem_finRange _) hj, hf⟩

/-- One `Cycle` on `FX0A` with no key pressed: only `opCode` is assigned. -/
theorem Cycle_FX0A_idle (rnd : Nat) (s : CPU) (X : Fin 16)
    (hlen : s.ramMemory.length ≤ 65535)
    (hw : holdsWord s.ramMemory s.programCounter (0xF00A + 256 * X.val))
    (hk : ∀ k, s.key k = 0) :
    Cycle rnd s = .ok { cpu := { s with opCode := 0xF00A + 256 * X.val },
                        beeps := 0, invalid := false } := by
  have hX := X.isLt
  have hf := fetch_eq s _ hlen (by omega) hw
  have hfam : (0xF00A + 256 * X.val) &&& 0xF000 = 0xF000 := by rw [and_F000]; omega
  have hlow : (0xF00A + 256 * X.val) &&& 0x00FF = 0x000A := by rw [and_00FF]; omega
  rw [Cycle_eq rnd s _ hf]
  simp [execute, execF, hfam, hlow, scanKeys_none _ _ _ hk]

/-- A `Cycle` whose branch falls out of the `switch` into the timer tick. -/
theorem Cycle_done (rnd : Nat) (s : CPU) (w : Nat) (c : CPU) (hf : fetch s = .ok w)
    (he : execute rnd { s with opCode := w } = done c) (hb : c.beeper = true) :
    Cycle rnd s = .ok
      { cpu := { c with delayTimer := c.delayTimer - 1, soundTimer := c.soundTimer - 1 }
        beeps := if c.soundTimer = 1 then 1 else 0
        invalid := false } := by
  rw [Cycle_eq rnd s w hf, he]
  simp only [done, Bool.false_eq_true, if_false]
  rw [tick_eq c hb]

/-- A `Cycle` that ends in a `default` branch of the `switch`. -/
theorem Cycle_invalid (rnd : Nat) (s : CPU) (w : Nat) (hf : fetch s = .ok w)
    (he : execute rnd { s with opCode := w } = invalidOp { s with opCode := w })
    (hb : s.beeper = true) :
    Cycle rnd s = .ok
      { cpu := { s with opCode := w, delayTimer := s.delayTimer - 1,
                        soundTimer := s.soundTimer - 1 }
        beeps := if s.soundTimer = 1 then 1 else 0
        invalid := true } := by
  rw [Cycle_eq rnd s w hf, he]
  simp only [invalidOp, Bool.false_eq_true, if_false]
  rw [tick_eq _ (show ({ s with opCode := w } : CPU).beeper = true from hb)]

/-- One `Cycle` on `FX0A` with a key pressed. -/
theorem Cycle_FX0A_key (rnd : Nat) (s : CPU) (X : Fin 16)
    (hlen : s.ramMemory.length ≤ 65535) (hb : s.beeper = true)
    (hw : holdsWord s.ramMemory s.programCounter (0xF00A + 256 * X.val))
    (hk : ∃ k, s.key k ≠ 0) :
    ∃ k, s.key k ≠ 0 ∧ (∀ j, s.key j ≠ 0 → j ≤ k) ∧
      ∃ o, Cycle rnd s = .ok o ∧
        o.cpu.variableRegister = setReg s.variableRegister X k.val ∧
        o.cpu.programCounter = s.programCounter + 2 := by
  have hX := X.isLt
  have hbd := holdsWord_bound hw
  have hf := fetch_eq s _ hlen (by omega) hw
  have hfam : (0xF00A + 256 * X.val) &&& 0xF000 = 0xF000 := by rw [and_F000]; omega
  have hlow : (0xF00A + 256 * X.val) &&& 0x00FF = 0x000A := by rw [and_00FF]; omega
  have hx : opX (0xF00A + 256 * X.val) = X := Fin.ext (by rw [opX_val]; omega)
  obtain ⟨k, hk0, hmax, hscan⟩ := scanKeys_some s.key X s.variableRegister false hk
  refine ⟨k, hk0, hmax, ?_⟩
  have hpc : (s.programCounter + 2) % 65536 = s.programCounter + 2 :=
    Nat.mod_eq_of_lt (by omega)
  have he : execute rnd { s with opCode := 0xF00A + 256 * X.val } =
      done (advance { s with opCode := 0xF00A + 256 * X.val,
                             variableRegister := setReg s.variableRegister X k.val } 2) := by
    simp [execute, execF, hfam, hlow, hx, hscan]
  refine ⟨_, Cycle_done rnd s _ _ hf he hb, ?_, ?_⟩
  · rfl
  · exact hpc

/-- A run of `FX0A` cycles with no key pressed keeps everything but `opCode`. -/
theorem cycles_FX0A_idle (n : Nat) (rnd : Nat → Nat) (s : CPU) (X : Fin 16)
    (hlen : s.ramMemory.length ≤ 65535)
    (hw : holdsWord s.ramMemory s.programCounter (0xF00A + 256 * X.val))
    (hk : ∀ k, s.key k = 0) :
    ∃ w, cycles rnd n s = .ok ({ s with opCode := w }, 0) := by
  induction n generalizing rnd s with
  | zero => exact ⟨s.opCode, rfl⟩
  | succ n ih =>
    obtain ⟨w, hw'⟩ := ih (fun k => rnd (k + 1)) { s with opCode := 0xF00A + 256 * X.val }
      hlen hw hk
    refine ⟨w, ?_⟩
    simp only [cycles, Cycle_FX0A_idle (rnd 0) s X hlen hw hk, bind, Except.bind, hw', pure,
      Except.pure]

theorem Ensures.ite {Q : Executed → Prop} {p : Prop} [Decidable p]
    {a b : Except Fault Executed}
    (ha : p → Ensures a Q) (hb : ¬p → Ensures b Q) : Ensures (if p then a else b) Q := by
  split
  · exact ha ‹_›
  · exact hb ‹_›

theorem Ensures.ok {Q : Executed → Prop} {e : Executed} (h : Q e) : Ensures (.ok e) Q := by
  intro e' he
  cases he
  exact h

theorem Ensures.done {Q : Executed → Prop} {c : CPU}
    (h : Q { cpu := c, early := false, invalid := false }) : Ensures (done c) Q :=
  Ensures.ok h

theorem Ensures.invalidOp {Q : Executed → Prop} {c : CPU}
    (h : Q { cpu := c, early := false, invalid := true }) : Ensures (invalidOp c) Q :=
  Ensures.ok h

theorem Ensures.error {Q : Executed → Prop} {f : Fault} : Ensures (.error f) Q := by
  intro e he
  cases he

theorem Ensures.bind {α : Type} {Q : Executed → Prop} {x : Except Fault α}
    {g : α → Except Fault Executed} (h : ∀ a, Ensures (g a) Q) : Ensures (x >>= g) Q := by
  cases x with
  | error f => exact Ensures.error
  | ok a => exact h a

theorem Ensures.mono {Q Q' : Executed → Prop} {r : Except Fault Executed}
    (h : Ensures r Q) (hq : ∀ e, Q e → Q' e) : Ensures r Q' :=
  fun e he => hq e (h e he)

theorem exec0_timers (c : CPU) : Ensures (exec0 c) (KeepsTimers c) := by
  unfold exec0
  refine Ensures.ite (fun _ => Ensures.done ⟨rfl, rfl, rfl⟩)
    (fun _ => Ensures.ite (fun _ => ?_) (fun _ => Ensures.invalidOp ⟨rfl, rfl, rfl⟩))
  simp only []
  split
  · exact Ensures.done ⟨rfl, rfl, rfl⟩
  · exact Ensures.error

theorem exec8_timers (c : CPU) : Ensures (exec8 c) (KeepsTimers c) := by
  unfold exec8
  repeat (first
    | exact Ensures.done ⟨rfl, rfl, rfl⟩
    | exact Ensures.invalidOp ⟨rfl, rfl, rfl⟩
    | refine Ensures.ite (fun _ => ?_) (fun _ => ?_))

theorem execD_timers (c : CPU) : Ensures (execD c) (KeepsTimers c) := by
  unfold execD
  exact Ensures.bind (fun _ => Ensures.done ⟨rfl, rfl, rfl⟩)

theorem execE_timers (c : CPU) : Ensures (execE c) (KeepsTimers c) := by
  unfold execE
  repeat (first
    | exact Ensures.done ⟨rfl, rfl, rfl⟩
    | exact Ensures.invalidOp ⟨rfl, rfl, rfl⟩
    | refine Ensures.ite (fun _ => ?_) (fun _ => ?_)
    | refine Ensures.bind (fun _ => ?_))

theorem execF_timers (c : CPU) : Ensures (execF c) (TimersF c) := by
  unfold execF
  simp only []
  refine Ensures.ite (fun h => Ensures.done ⟨by simp [h], fun _ => rfl, fun _ => rfl⟩)
    (fun _ => Ensures.ite (fun hA => ?_) (fun hA => ?_))
  · by_cases hk : ∀ k, c.key k = 0
    · rw [scanKeys_none _ _ _ hk]
      exact Ensures.ite (fun _ => Ensures.ok ⟨by simp [hA, hk], fun _ => rfl, fun _ => rfl⟩)
        (fun h => absurd rfl h)
    · have hk' : ∃ k, c.key k ≠ 0 := by
        by_contra hn
        exact hk (fun k => by
          by_contra hne
          exact hn ⟨k, hne⟩)
      obtain ⟨k, _, _, hscan⟩ := scanKeys_some c.key (opX c.opCode) c.variableRegister false hk'
      rw [hscan]
      exact Ensures.ite (fun h => by simp at h)
        (fun _ => Ensures.done ⟨by simp [hk], fun _ => rfl, fun _ => rfl⟩)
  · refine Ensures.ite (fun h => Ensures.done ⟨by simp [hA], fun h' => absurd h h', fun _ => rfl⟩)
      (fun h15 => Ensures.ite
        (fun h => Ensures.done ⟨by simp [hA], fun _ => rfl, fun h' => absurd h h'⟩)
        (fun h18 => ?_))
    repeat (first
      | exact Ensures.done ⟨by simp [hA], fun _ => rfl, fun _ => rfl⟩
      | exact Ensures.invalidOp ⟨by simp [hA], fun _ => rfl, fun _ => rfl⟩
      | refine Ensures.ite (fun _ => ?_) (fun _ => ?_)
      | refine Ensures.bind (fun _ => ?_))

theorem TimersAll.of_keeps {c : CPU} {e : Executed}
    (hne : c.opCode &&& 0xF000 ≠ 0xF000) (h : KeepsTimers c e) : TimersAll c e :=
  ⟨⟨fun he => (by rw [h.1] at he; cases he), fun hf => absurd hf.1 hne⟩,
    fun _ => h.2.1, fun _ => h.2.2⟩

theorem execute_timers (rnd : Nat) (c : CPU) : Ensures (execute rnd c) (TimersAll c) := by
  unfold execute
  simp only []
  refine Ensures.ite (fun h => (exec0_timers c).mono
    (fun e he => TimersAll.of_keeps (by omega) he)) (fun _ => ?_)
  iterate 7
    refine Ensures.ite (fun h => ?_) (fun _ => ?_)
    · have hne : c.opCode &&& 0xF000 ≠ 0xF000 := by omega
      repeat (first
        | exact Ensures.done (TimersAll.of_keeps hne ⟨rfl, rfl, rfl⟩)
        | exact Ensures.error
        | refine Ensures.ite (fun _ => ?_) (fun _ => ?_))
  refine Ensures.ite (fun h => (exec8_timers c).mono
    (fun e he => TimersAll.of_keeps (by omega) he)) (fun _ => ?_)
  iterate 4
    refine Ensures.ite (fun h => ?_) (fun _ => ?_)
    · have hne : c.opCode &&& 0xF000 ≠ 0xF000 := by omega
      repeat (first
        | exact Ensures.done (TimersAll.of_keeps hne ⟨rfl, rfl, rfl⟩)
        | exact Ensures.error
        | refine Ensures.ite (fun _ => ?_) (fun _ => ?_))
  refine Ensures.ite (fun h => (execD_timers c).mono
    (fun e he => TimersAll.of_keeps (by omega) he)) (fun _ => ?_)
  refine Ensures.ite (fun h => (execE_timers c).mono
    (fun e he => TimersAll.of_keeps (by omega) he)) (fun _ => ?_)
  refine Ensures.ite (fun h => (execF_timers c).mono (fun e he => ?_))
    (fun h => Ensures.invalidOp (TimersAll.of_keeps h ⟨rfl, rfl, rfl⟩))
  exact ⟨⟨fun hx => ⟨h, he.1.1 hx⟩, fun hx => he.1.2 hx.2⟩,
    fun hx => he.2.1 (fun h15 => hx ⟨h, h15⟩), fun hx => he.2.2 (fun h18 => hx ⟨h, h18⟩)⟩

theorem tick_timers (c c' : CPU) (n : Nat) (h : tick c = .ok (c', n)) :
    c'.delayTimer = c.delayTimer - 1 ∧ c'.soundTimer = c.soundTimer - 1 := by
  unfold tick at h
  by_cases h1 : c.delayTimer > 0 <;> by_cases h2 : c.soundTimer > 0 <;>
    by_cases h3 : c.soundTimer = 1 <;> by_cases h4 : c.beeper = true <;>
    simp [h1, h2, h3, h4] at h <;>
    (obtain ⟨rfl, _⟩ := h; constructor <;> (try dsimp only) <;> omega)

/-- One `Cycle` on `8XY4`. -/
theorem Cycle_8XY4 (rnd : Nat) (s : CPU) (X Y : Fin 16)
    (hlen : s.ramMemory.length ≤ 65535) (hb : s.beeper = true)
    (hw : holdsWord s.ramMemory s.programCounter (0x8004 + 256 * X.val + 16 * Y.val)) :
    ∃ o, Cycle rnd s = .ok o ∧
      o.cpu.variableRegister =
        setReg (setReg s.variableRegister 0xF
            (if s.variableRegister Y > 0xFF - s.variableRegister X then 1 else 0)) X
          ((setReg s.variableRegister 0xF
              (if s.variableRegister Y > 0xFF - s.variableRegister X then 1 else 0) X +
            setReg s.variableRegister 0xF
              (if s.variableRegister Y > 0xFF - s.variableRegister X then 1 else 0) Y) % 256) ∧
      o.cpu.programCounter = s.programCounter + 2 := by
  have hX := X.isLt
  have hY := Y.isLt
  have hbd := holdsWord_bound hw
  have hf := fetch_eq s _ hlen (by omega) hw
  have hfam : (0x8004 + 256 * X.val + 16 * Y.val) &&& 0xF000 = 0x8000 := by
    rw [and_F000]; omega
  have hlow : (0x8004 + 256 * X.val + 16 * Y.val) &&& 0x000F = 0x0004 := by
    rw [and_000F]; omega
  have hx : opX (0x8004 + 256 * X.val + 16 * Y.val) = X := Fin.ext (by rw [opX_val]; omega)
  have hy : opY (0x8004 + 256 * X.val + 16 * Y.val) = Y := Fin.ext (by rw [opY_val]; omega)
  have hpc : (s.programCounter + 2) % 65536 = s.programCounter + 2 :=
    Nat.mod_eq_of_lt (by omega)
  have he : execute rnd { s with opCode := 0x8004 + 256 * X.val + 16 * Y.val } =
      done (advance { s with
        opCode := 0x8004 + 256 * X.val + 16 * Y.val
        variableRegister :=
          setReg (setReg s.variableRegister 0xF
              (if s.variableRegister Y > 0xFF - s.variableRegister X then 1 else 0)) X
            ((setReg s.variableRegister 0xF
                (if s.variableRegister Y > 0xFF - s.variableRegister X then 1 else 0) X +
              setReg s.variableRegister 0xF
                (if s.variableRegister Y > 0xFF - s.variableRegister X then 1 else 0) Y)
              % 256) } 2) := by
    simp only [execute, exec8, hfam, hlow, hx, hy]
    by_cases hc : s.variableRegister Y > 0xFF - s.variableRegister X <;> simp [hc]
  refine ⟨_, Cycle_done rnd s _ _ hf he hb, ?_, ?_⟩
  · rfl
  · exact hpc

/-- One `Cycle` on `8XY5`. -/
theorem Cycle_8XY5 (rnd : Nat) (s : CPU) (X Y : Fin 16)
    (hlen : s.ramMemory.length ≤ 65535) (hb : s.beeper = true)
    (hw : holdsWord s.ramMemory s.programCounter (0x8005 + 256 * X.val + 16 * Y.val)) :
    ∃ o, Cycle rnd s = .ok o ∧
      o.cpu.variableRegister =
        setReg (setReg s.variableRegister 0xF
            (if s.variableRegister Y > s.variableRegister X then 0 else 1)) X
          ((setReg s.variableRegister 0xF
              (if s.variableRegister Y > s.variableRegister X then 0 else 1) X + 256 -
            setReg s.variableRegister 0xF
              (if s.variableRegister Y > s.variableRegister X then 0 else 1) Y) % 256) ∧
      o.cpu.programCounter = s.programCounter + 2 := by
  have hX := X.isLt
  have hY := Y.isLt
  have hbd := holdsWord_bound hw
  have hf := fetch_eq s _ hlen (by omega) hw
  have hfam : (0x8005 + 256 * X.val + 16 * Y.val) &&& 0xF000 = 0x8000 := by
    rw [and_F000]; omega
  have hlow : (0x8005 + 256 * X.val + 16 * Y.val) &&& 0x000F = 0x0005 := by
    rw [and_000F]; omega
  have hx : opX (0x8005 + 256 * X.val + 16 * Y.val) = X := Fin.ext (by rw [opX_val]; omega)
  have hy : opY (0x8005 + 256 * X.val + 16 * Y.val) = Y := Fin.ext (by rw [opY_val]; omega)
  have hpc : (s.programCounter + 2) % 65536 = s.programCounter + 2 :=
    Nat.mod_eq_of_lt (by omega)
  have he : execute rnd { s with opCode := 0x8005 + 256 * X.val + 16 * Y.val } =
      done (advance { s with
        opCode := 0x8005 + 256 * X.val + 16 * Y.val
        variableRegister :=
          setReg (setReg s.variableRegister 0xF
              (if s.variableRegister Y > s.variableRegister X then 0 else 1)) X
            ((setReg s.variableRegister 0xF
                (if s.variableRegister Y > s.variableRegister X then 0 else 1) X + 256 -
              setReg s.variableRegister 0xF
                (if s.variableRegister Y > s.variableRegister X then 0 else 1) Y) % 256) } 2) := by
    simp only [execute, exec8, hfam, hlow, hx, hy]
    by_cases hc : s.variableRegister Y > s.variableRegister X <;> simp [hc]
  refine ⟨_, Cycle_done rnd s _ _ hf he hb, ?_, ?_⟩
  · rfl
  · exact hpc

/-- One `Cycle` on `2NNN` with room on the stack. -/
theorem Cycle_2NNN (rnd : Nat) (s : CPU) (NNN : Nat) (hN : NNN < 4096)
    (hlen : s.ramMemory.length ≤ 65535) (hb : s.beeper = true)
    (hst : s.stack.length ≤ 65535) (hsp : s.stackPointer < s.stack.length)
    (hw : holdsWord s.ramMemory s.programCounter (0x2000 + NNN)) :
    Cycle rnd s = .ok
      { cpu := { s with
          opCode := 0x2000 + NNN
          stack := s.stack.set s.stackPointer s.programCounter
          stackPointer := s.stackPointer + 1
          programCounter := NNN
          delayTimer := s.delayTimer - 1
          soundTimer := s.soundTimer - 1 }
        beeps := if s.soundTimer = 1 then 1 else 0
        invalid := false } := by
  have hf := fetch_eq s _ hlen (by omega) hw
  have hfam : (0x2000 + NNN) &&& 0xF000 = 0x2000 := by rw [and_F000]; omega
  have hnnn : (0x2000 + NNN) &&& 0x0FFF = NNN := by rw [and_0FFF]; omega
  have hsp1 : (s.stackPointer + 1) % 65536 = s.stackPointer + 1 :=
    Nat.mod_eq_of_lt (by omega)
  have he : execute rnd { s with opCode := 0x2000 + NNN } =
      done { s with
        opCode := 0x2000 + NNN
        stack := s.stack.set s.stackPointer s.programCounter
        stackPointer := s.stackPointer + 1
        programCounter := NNN } := by
    simp [execute, hfam, hnnn, hsp, hsp1]
  exact Cycle_done rnd s _ _ hf he hb

/-- One `Cycle` on `00EE` with the return address `ret` on top of the stack. -/
theorem Cycle_00EE (rnd : Nat) (s : CPU) (sp ret : Nat)
    (hlen : s.ramMemory.length ≤ 65535) (hb : s.beeper = true)
    (hsp : s.stackPointer = sp + 1) (hsp' : sp + 1 < 65536)
    (hret : s.stack[sp]? = some ret) (hr : ret + 2 < 65536)
    (hw : holdsWord s.ramMemory s.programCounter 0x00EE) :
    ∃ o, Cycle rnd s = .ok o ∧ o.cpu.programCounter = ret + 2 ∧ o.cpu.stackPointer = sp := by
  have hf := fetch_eq s _ hlen (by omega) hw
  have hfam : (0x00EE : Nat) &&& 0xF000 = 0x0000 := by decide
  have hlow : (0x00EE : Nat) &&& 0x000F = 0x000E := by decide
  have hsp1 : (s.stackPointer + 65535) % 65536 = sp := by omega
  have hpc : (ret + 2) % 65536 = ret + 2 := Nat.mod_eq_of_lt hr
  have he : execute rnd { s with opCode := 0x00EE } =
      done { s with opCode := 0x00EE, stackPointer := sp, programCounter := ret + 2 } := by
    simp [execute, exec0, hfam, hlow, hsp1, hret, advance, hpc]
  exact ⟨_, Cycle_done rnd s _ _ hf he hb, rfl, rfl⟩

/-- One `Cycle` on `00E0`. -/
theorem Cycle_00E0 (rnd : Nat) (s : CPU)
    (hlen : s.ramMemory.length ≤ 65535) (hb : s.beeper = true)
    (hw : holdsWord s.ramMemory s.programCounter 0x00E0) :
    Cycle rnd s = .ok
      { cpu := { s with
          opCode := 0x00E0
          display := fun _ _ => 0
          shouldDraw := true
          programCounter := s.programCounter + 2
          delayTimer := s.delayTimer - 1
          soundTimer := s.soundTimer - 1 }
        beeps := if s.soundTimer = 1 then 1 else 0
        invalid := false } := by
  have hbd := holdsWord_bound hw
  have hf := fetch_eq s _ hlen (by omega) hw
  have hfam : (0x00E0 : Nat) &&& 0xF000 = 0x0000 := by decide
  have hlow : (0x00E0 : Nat) &&& 0x000F = 0x0000 := by decide
  have hpc : (s.programCounter + 2) % 65536 = s.programCounter + 2 :=
    Nat.mod_eq_of_lt (by omega)
  have he : execute rnd { s with opCode := 0x00E0 } =
      done { s with
        opCode := 0x00E0
        display := fun _ _ => 0
        shouldDraw := true
        programCounter := s.programCounter + 2 } := by
    simp [execute, exec0, hfam, hlow, advance, hpc]
  exact Cycle_done rnd s _ _ hf he hb

/-- A run of `n + 1` cycles is one `Cycle` followed by a run of `n`. -/
theorem cycles_succ (rnd : Nat → Nat) (n : Nat) (s : CPU) (o : Outcome) (s' : CPU) (b : Nat)
    (h1 : Cycle (rnd 0) s = .ok o)
    (h2 : cycles (fun k => rnd (k + 1)) n o.cpu = .ok (s', b)) :
    cycles rnd (n + 1) s = .ok (s', o.beeps + b) := by
  simp only [cycles, h1, h2, bind, Except.bind, pure, Except.pure]

/-- A run of `n + 1` cycles over consecutive `00E0` words ends with a zero
display and the redraw flag raised. -/
theorem cycles_00E0 (n : Nat) (rnd : Nat → Nat) (s : CPU)
    (hlen : s.ramMemory.length ≤ 65535) (hb : s.beeper = true)
    (hw : ∀ k, k < n + 1 → holdsWord s.ramMemory (s.programCounter + 2 * k) 0x00E0) :
    ∃ s' b, cycles rnd (n + 1) s = .ok (s', b) ∧
      (∀ r c, s'.display r c = 0) ∧ s'.shouldDraw = true := by
  induction n generalizing rnd s with
  | zero =>
    have h0 := hw 0 (by omega)
    exact ⟨_, _, cycles_succ rnd 0 s _ _ _ (Cycle_00E0 (rnd 0) s hlen hb h0) rfl,
      fun _ _ => rfl, rfl⟩
  | succ n ih =>
    have h0 := hw 0 (by omega)
    obtain ⟨s', b, hrun, hd, hsd⟩ := ih (fun k => rnd (k + 1))
      { s with
        opCode := 0x00E0
        display := fun _ _ => 0
        shouldDraw := true
        programCounter := s.programCounter + 2
        delayTimer := s.delayTimer - 1
        soundTimer := s.soundTimer - 1 } hlen hb
      (fun k hk => by
        have h := hw (k + 1) (by omega)
        have e : s.programCounter + 2 * (k + 1) = s.programCounter + 2 + 2 * k := by omega
        rw [e] at h
        exact h)
    exact ⟨s', _, cycles_succ rnd (n + 1) s _ _ _ (Cycle_00E0 (rnd 0) s hlen hb h0) hrun,
      hd, hsd⟩

/-- The words that end in a `default` branch, on their hex digits. -/
theorem execute_default (rnd : Nat) (c : CPU)
    (h : (c.opCode / 4096 % 16 = 0 ∧ c.opCode % 16 ≠ 0 ∧ c.opCode % 16 ≠ 0xE) ∨
         (c.opCode / 4096 % 16 = 8 ∧ 8 ≤ c.opCode % 16 ∧ c.opCode % 16 ≠ 0xE) ∨
         (c.opCode / 4096 % 16 = 0xE ∧ c.opCode % 256 ≠ 0x9E ∧ c.opCode % 256 ≠ 0xA1) ∨
         (c.opCode / 4096 % 16 = 0xF ∧ c.opCode % 256 ≠ 0x07 ∧ c.opCode % 256 ≠ 0x0A ∧
           c.opCode % 256 ≠ 0x15 ∧ c.opCode % 256 ≠ 0x18 ∧ c.opCode % 256 ≠ 0x1E ∧
           c.opCode % 256 ≠ 0x29 ∧ c.opCode % 256 ≠ 0x33 ∧ c.opCode % 256 ≠ 0x55 ∧
           c.opCode % 256 ≠ 0x65)) :
    execute rnd c = invalidOp c := by
  have hfam := and_F000 c.opCode
  have hn := and_000F c.opCode
  have hnn := and_00FF c.opCode
  rcases h with h | h | h | h
  · have h1 : c.opCode &&& 0xF000 = 0x0000 := by omega
    have h2 : ¬(c.opCode &&& 0x000F = 0x0000) := by omega
    have h3 : ¬(c.opCode &&& 0x000F = 0x000E) := by omega
    simp [execute, exec0, h1, h2, h3]
  · have h1 : c.opCode &&& 0xF000 = 0x8000 := by omega
    have k0 : ¬(c.opCode &&& 0x000F = 0x0000) := by omega
    have k1 : ¬(c.opCode &&& 0x000F = 0x0001) := by omega
    have k2 : ¬(c.opCode &&& 0x000F = 0x0002) := by omega
    have k3 : ¬(c.opCode &&& 0x000F = 0x0003) := by omega
    have k4 : ¬(c.opCode &&& 0x000F = 0x0004) := by omega
    have k5 : ¬(c.opCode &&& 0x000F = 0x0005) := by omega
    have k6 : ¬(c.opCode &&& 0x000F = 0x0006) := by omega
    have k7 : ¬(c.opCode &&& 0x000F = 0x0007) := by omega
    have kE : ¬(c.opCode &&& 0x000F = 0x000E) := by omega
    simp [execute, exec8, h1, k0, k1, k2, k3, k4, k5, k6, k7, kE]
  · have h1 : c.opCode &&& 0xF000 = 0xE000 := by omega
    have k0 : ¬(c.opCode &&& 0x00FF = 0x009E) := by omega
    have k1 : ¬(c.opCode &&& 0x00FF = 0x00A1) := by omega
    simp [execute, execE, h1, k0, k1]
  · have h1 : c.opCode &&& 0xF000 = 0xF000 := by omega
    have k0 : ¬(c.opCode &&& 0x00FF = 0x0007) := by omega
    have k1 : ¬(c.opCode &&& 0x00FF = 0x000A) := by omega
    have k2 : ¬(c.opCode &&& 0x00FF = 0x0015) := by omega
    have k3 : ¬(c.opCode &&& 0x00FF = 0x0018) := by omega
    have k4 : ¬(c.opCode &&& 0x00FF = 0x001E) := by omega
    have k5 : ¬(c.opCode &&& 0x00FF = 0x0029) := by omega
    have k6 : ¬(c.opCode &&& 0x00FF = 0x0033) := by omega
    have k7 : ¬(c.opCode &&& 0x00FF = 0x0055) := by omega
    have k8 : ¬(c.opCode &&& 0x00FF = 0x0065) := by omega
    simp [execute, execF, h1, k0, k1, k2, k3, k4, k5, k6, k7, k8]

/-! ## The sprite loops of `DXYN` -/

theorem drawPixel_set (x y p j i : Nat) (hr : y + j < 32) (hj : j < 256) (hc : x + i < 64)
    (hi : i < 256) (st : Screen × Nat) (hb : p &&& (0x80 >>> i) ≠ 0) :
    drawPixel x y p j i st =
      .ok (setCell st.1 ⟨y + j, hr⟩ ⟨x + i, hc⟩ (st.1 ⟨y + j, hr⟩ ⟨x + i, hc⟩ ^^^ 1),
           if st.1 ⟨y + j, hr⟩ ⟨x + i, hc⟩ = 1 then 1 else st.2) := by
  have e1 : (y + j % 256) % 256 = y + j := by omega
  have e2 : (x + i % 256) % 256 = x + i := by omega
  unfold drawPixel
  simp only [hb, ne_eq, not_false_eq_true, if_true, e1, e2, hr, hc, dite_true]

theorem drawPixel_clear (x y p j i : Nat) (st : Screen × Nat) (hb : ¬(p &&& (0x80 >>> i) ≠ 0)) :
    drawPixel x y p j i st = .ok st := by
  unfold drawPixel
  rw [if_neg hb]

theorem drawRow_cols (x y p j : Nat) (hr : y + j < 32) (hj : j < 256) (hx : x + 8 ≤ 64)
    (d : Screen) (vf : Nat) (m : Nat) (hm : m ≤ 8) :
    ∃ vf', (List.range m).foldlM (fun st i => drawPixel x y p j i st) (d, vf) =
        .ok (fun r c => if rowHit x y p j m r c then d r c ^^^ 1 else d r c, vf') ∧
      ((∃ r c, rowHit x y p j m r c ∧ d r c = 1) → vf' = 1) ∧
      ((¬∃ r c, rowHit x y p j m r c ∧ d r c = 1) → vf' = vf) := by
  induction m with
  | zero =>
    refine ⟨vf, ?_, ?_, fun _ => rfl⟩
    · have : (fun r c => if rowHit x y p j 0 r c then d r c ^^^ 1 else d r c) = d := by
        funext r c
        rw [if_neg]
        intro h
        have := h.2.1
        have := h.2.2.1
        omega
      rw [this]
      rfl
    · rintro ⟨r, c, h, _⟩
      have := h.2.1
      have := h.2.2.1
      omega
  | succ m ih =>
    obtain ⟨vfm, hrun, hone, hkeep⟩ := ih (by omega)
    rw [List.range_succ, List.foldlM_append, hrun]
    simp only [bind, Except.bind, List.foldlM_cons, List.foldlM_nil, pure, Except.pure]
    by_cases hb : p &&& (0x80 >>> m) ≠ 0
    · have hc : x + m < 64 := by omega
      rw [drawPixel_set x y p j m hr hj hc (by omega) _ hb]
      have hcell : (if rowHit x y p j m ⟨y + j, hr⟩ ⟨x + m, hc⟩
          then d ⟨y + j, hr⟩ ⟨x + m, hc⟩ ^^^ 1 else d ⟨y + j, hr⟩ ⟨x + m, hc⟩)
          = d ⟨y + j, hr⟩ ⟨x + m, hc⟩ := by
        rw [if_neg]
        intro h
        have := h.2.2.1
        simp only at this
        omega
      simp only [hcell]
      refine ⟨if d ⟨y + j, hr⟩ ⟨x + m, hc⟩ = 1 then 1 else vfm, ?_, ?_, ?_⟩
      · congr 1
        congr 1
        funext r c
        simp only [setCell]
        by_cases hrc : r = ⟨y + j, hr⟩ ∧ c = ⟨x + m, hc⟩
        · obtain ⟨rfl, rfl⟩ := hrc
          have hh : rowHit x y p j (m + 1) ⟨y + j, hr⟩ ⟨x + m, hc⟩ := by
            refine ⟨rfl, ?_, ?_, ?_⟩
            · simp
            · simp
            · simpa using hb
          simp [hh]
        · rw [if_neg hrc]
          have hiff : rowHit x y p j (m + 1) r c ↔ rowHit x y p j m r c := by
            constructor
            · rintro ⟨h1, h2, h3, h4⟩
              refine ⟨h1, h2, ?_, h4⟩
              by_contra hlt
              apply hrc
              constructor
              · exact Fin.ext h1
              · apply Fin.ext
                show c.val = x + m
                omega
            · rintro ⟨h1, h2, h3, h4⟩
              exact ⟨h1, h2, by omega, h4⟩
          by_cases hh : rowHit x y p j m r c
          · rw [if_pos hh, if_pos (hiff.2 hh)]
          · rw [if_neg hh, if_neg (fun h => hh (hiff.1 h))]
      · rintro ⟨r, c, hh, hd1⟩
        by_cases hlast : c.val = x + m
        · have hr' : r = ⟨y + j, hr⟩ := Fin.ext hh.1
          have hc' : c = ⟨x + m, hc⟩ := Fin.ext hlast
          subst hr' hc'
          rw [if_pos hd1]
        · have hh' : rowHit x y p j m r c := ⟨hh.1, hh.2.1, by have := hh.2.2.1; omega, hh.2.2.2⟩
          have := hone ⟨r, c, hh', hd1⟩
          rw [this]
          split <;> rfl
      · intro hno
        have hcellne : ¬(d ⟨y + j, hr⟩ ⟨x + m, hc⟩ = 1) := by
          intro h1
          apply hno
          refine ⟨⟨y + j, hr⟩, ⟨x + m, hc⟩, ⟨rfl, ?_, ?_, ?_⟩, h1⟩
          · simp
          · simp
          · simpa using hb
        rw [if_neg hcellne]
        apply hkeep
        rintro ⟨r, c, hh, hd1⟩
        exact hno ⟨r, c, ⟨hh.1, hh.2.1, by have := hh.2.2.1; omega, hh.2.2.2⟩, hd1⟩
    · rw [drawPixel_clear x y p j m _ hb]
      have hiff : ∀ r c, rowHit x y p j (m + 1) r c ↔ rowHit x y p j m r c := by
        intro r c
        constructor
        · rintro ⟨h1, h2, h3, h4⟩
          refine ⟨h1, h2, ?_, h4⟩
          by_contra hlt
          have : c.val - x = m := by omega
          rw [this] at h4
          exact hb h4
        · rintro ⟨h1, h2, h3, h4⟩
          exact ⟨h1, h2, by omega, h4⟩
      refine ⟨vfm, ?_, ?_, ?_⟩
      · show Except.ok (_, _) = Except.ok (_, _)
        congr 1
        congr 1
        funext r c
        by_cases hh : rowHit x y p j m r c
        · rw [if_pos hh, if_pos ((hiff r c).2 hh)]
        · rw [if_neg hh, if_neg (fun h => hh ((hiff r c).1 h))]
      · rintro ⟨r, c, hh, hd1⟩
        exact hone ⟨r, c, (hiff r c).1 hh, hd1⟩
      · intro hno
        apply hkeep
        rintro ⟨r, c, hh, hd1⟩
        exact hno ⟨r, c, (hiff r c).2 hh, hd1⟩


theorem hits_zero (mem : List Nat) (I x y : Nat) (r : Fin 32) (c : Fin 64) :
    ¬hits mem I x y 0 r c := by
  intro h
  have := h.1
  have := h.2.1
  omega

theorem hits_succ (mem : List Nat) (I x y n : Nat) (r : Fin 32) (c : Fin 64) :
    hits mem I x y (n + 1) r c ↔
      hits mem I x y n r c ∨ rowHit x y (mem.getD (I + n) 0) n 8 r c := by
  constructor
  · rintro ⟨h1, h2, h3, h4, h5⟩
    by_cases hlast : r.val = y + n
    · right
      have e : r.val - y = n := by omega
      rw [e] at h5
      exact ⟨hlast, h3, h4, h5⟩
    · left
      exact ⟨h1, by omega, h3, h4, h5⟩
  · rintro (⟨h1, h2, h3, h4, h5⟩ | ⟨h1, h2, h3, h4⟩)
    · exact ⟨h1, by omega, h3, h4, h5⟩
    · have e : r.val - y = n := by omega
      refine ⟨by omega, by omega, h2, h3, ?_⟩
      rw [e]
      exact h4

theorem rowHit_not_hits (mem : List Nat) (I x y p n : Nat) (r : Fin 32) (c : Fin 64)
    (h : rowHit x y p n 8 r c) : ¬hits mem I x y n r c := by
  intro h'
  have := h.1
  have := h'.2.1
  omega

/-- The two loops of `DXYN` in closed form, for a sprite that stays inside
the display and inside memory: the cells under set bits are toggled, and VF
becomes 1 exactly when one of them held 1. -/
theorem drawSprite_rows (mem : List Nat) (I x y : Nat) (hx : x + 8 ≤ 64)
    (hlen : mem.length ≤ 65535) (d : Screen) (vf : Nat) (n : Nat)
    (hy : y + n ≤ 32) (hI : I + n ≤ mem.length) :
    ∃ vf', drawSprite mem I x y n (d, vf) =
        .ok (fun r c => if hits mem I x y n r c then d r c ^^^ 1 else d r c, vf') ∧
      ((∃ r c, hits mem I x y n r c ∧ d r c = 1) → vf' = 1) ∧
      ((¬∃ r c, hits mem I x y n r c ∧ d r c = 1) → vf' = vf) := by
  induction n with
  | zero =>
    refine ⟨vf, ?_, ?_, fun _ => rfl⟩
    · have : (fun r c => if hits mem I x y 0 r c then d r c ^^^ 1 else d r c) = d := by
        funext r c
        rw [if_neg (hits_zero mem I x y r c)]
      rw [this]
      rfl
    · rintro ⟨r, c, h, _⟩
      exact absurd h (hits_zero mem I x y r c)
  | succ n ih =>
    obtain ⟨vfn, hrun, hone, hkeep⟩ := ih (by omega) (by omega)
    have hmod : (I + n) % 65536 = I + n := Nat.mod_eq_of_lt (by omega)
    have hget : mem[I + n]? = some (mem.getD (I + n) 0) := by
      rw [List.getD_eq_getElem?_getD, List.getElem?_eq_getElem (by omega)]
      rfl
    obtain ⟨vf', hrow, hone', hkeep'⟩ := drawRow_cols x y (mem.getD (I + n) 0) n
      (by omega) (by omega) hx
      (fun r c => if hits mem I x y n r c then d r c ^^^ 1 else d r c) vfn 8 (le_refl 8)
    refine ⟨vf', ?_, ?_, ?_⟩
    · unfold drawSprite at hrun ⊢
      rw [List.range_succ, List.foldlM_append, hrun]
      simp only [bind, Except.bind, List.foldlM_cons, List.foldlM_nil, pure, Except.pure,
        drawRow, readMem, hmod, hget]
      rw [hrow]
      show Except.ok (_, _) = Except.ok (_, _)
      congr 1
      congr 1
      funext r c
      by_cases hr : rowHit x y (mem.getD (I + n) 0) n 8 r c
      · rw [if_pos hr, if_neg (rowHit_not_hits mem I x y _ n r c hr),
          if_pos ((hits_succ mem I x y n r c).2 (Or.inr hr))]
      · rw [if_neg hr]
        by_cases hh : hits mem I x y n r c
        · rw [if_pos hh, if_pos ((hits_succ mem I x y n r c).2 (Or.inl hh))]
        · rw [if_neg hh, if_neg]
          intro h
          rcases (hits_succ mem I x y n r c).1 h with h | h
          · exact hh h
          · exact hr h
    · rintro ⟨r, c, hh, hd1⟩
      rcases (hits_succ mem I x y n r c).1 hh with h | h
      · have h1 := hone ⟨r, c, h, hd1⟩
        by_cases hex : ∃ r c, rowHit x y (mem.getD (I + n) 0) n 8 r c ∧
            (if hits mem I x y n r c then d r c ^^^ 1 else d r c) = 1
        · exact hone' hex
        · rw [hkeep' hex, h1]
      · apply hone'
        refine ⟨r, c, h, ?_⟩
        rw [if_neg (rowHit_not_hits mem I x y _ n r c h)]
        exact hd1
    · intro hno
      have h1 : vfn = vf := hkeep (by
        rintro ⟨r, c, hh, hd1⟩
        exact hno ⟨r, c, (hits_succ mem I x y n r c).2 (Or.inl hh), hd1⟩)
      rw [← h1]
      apply hkeep'
      rintro ⟨r, c, hh, hd1⟩
      rw [if_neg (rowHit_not_hits mem I x y _ n r c hh)] at hd1
      exact hno ⟨r, c, (hits_succ mem I x y n r c).2 (Or.inr hh), hd1⟩

/-- One `Cycle` on `DXYN` for a sprite that stays inside the display and
inside memory. -/
theorem Cycle_DXYN (rnd : Nat) (s : CPU) (X Y : Fin 16) (N : Nat) (hN : N < 16)
    (hlen : s.ramMemory.length ≤ 65535) (hb : s.beeper = true)
    (hw : holdsWord s.ramMemory s.programCounter (0xD000 + 256 * X.val + 16 * Y.val + N))
    (hx : s.variableRegister X + 8 ≤ 64) (hy : s.variableRegister Y + N ≤ 32)
    (hI : s.indexRegister + N ≤ s.ramMemory.length) :
    ∃ vf, Cycle rnd s = .ok
        { cpu := { s with
            opCode := 0xD000 + 256 * X.val + 16 * Y.val + N
            display := fun r c =>
              if hits s.ramMemory s.indexRegister (s.variableRegister X) (s.variableRegister Y)
                  N r c
              then s.display r c ^^^ 1 else s.display r c
            variableRegister := setReg s.variableRegister 0xF vf
            shouldDraw := true
            programCounter := s.programCounter + 2
            delayTimer := s.delayTimer - 1
            soundTimer := s.soundTimer - 1 }
          beeps := if s.soundTimer = 1 then 1 else 0
          invalid := false } ∧
      ((∃ r c, hits s.ramMemory s.indexRegister (s.variableRegister X) (s.variableRegister Y)
          N r c ∧ s.display r c = 1) → vf = 1) ∧
      ((¬∃ r c, hits s.ramMemory s.indexRegister (s.variableRegister X) (s.variableRegister Y)
          N r c ∧ s.display r c = 1) → vf = 0) := by
  have hX := X.isLt
  have hY := Y.isLt
  have hbd := holdsWord_bound hw
  have hf := fetch_eq s _ hlen (by omega) hw
  have hfam : (0xD000 + 256 * X.val + 16 * Y.val + N) &&& 0xF000 = 0xD000 := by
    rw [and_F000]; omega
  have hlow : (0xD000 + 256 * X.val + 16 * Y.val + N) &&& 0x000F = N := by
    rw [and_000F]; omega
  have hx' : opX (0xD000 + 256 * X.val + 16 * Y.val + N) = X :=
    Fin.ext (by rw [opX_val]; omega)
  have hy' : opY (0xD000 + 256 * X.val + 16 * Y.val + N) = Y :=
    Fin.ext (by rw [opY_val]; omega)
  have hpc : (s.programCounter + 2) % 65536 = s.programCounter + 2 :=
    Nat.mod_eq_of_lt (by omega)
  obtain ⟨vf, hdraw, hone, hkeep⟩ := drawSprite_rows s.ramMemory s.indexRegister
    (s.variableRegister X) (s.variableRegister Y) hx hlen s.display 0 N hy hI
  refine ⟨vf, ?_, hone, hkeep⟩
  have he : execute rnd { s with opCode := 0xD000 + 256 * X.val + 16 * Y.val + N } =
      done { s with
        opCode := 0xD000 + 256 * X.val + 16 * Y.val + N
        display := fun r c =>
          if hits s.ramMemory s.indexRegister (s.variableRegister X) (s.variableRegister Y)
              N r c
          then s.display r c ^^^ 1 else s.display r c
        variableRegister := setReg s.variableRegister 0xF vf
        shouldDraw := true
        programCounter := s.programCounter + 2 } := by
    simp [execute, execD, hfam, hlow, hx', hy', hdraw, bind, Except.bind, advance, hpc]
  exact Cycle_done rnd s _ _ hf he hb

theorem and_two_pow_ne_zero (p k : Nat) : p &&& 2 ^ k ≠ 0 ↔ p.testBit k = true := by
  constructor
  · intro h
    by_contra hb
    apply h
    apply Nat.eq_of_testBit_eq
    intro j
    simp only [Nat.testBit_and, Nat.testBit_two_pow, Nat.zero_testBit]
    by_cases hj : k = j
    · subst hj
      simp [hb]
    · simp [hj]
  · intro hb h
    have h' := congrArg (fun n => n.testBit k) h
    simp [Nat.testBit_and, Nat.testBit_two_pow, hb] at h'

/-- The code's bit test reads bit `i` counted from the most significant bit. -/
theorem bit_test (p i : Nat) (hi : i < 8) :
    p &&& (0x80 >>> i) ≠ 0 ↔ p.testBit (7 - i) = true := by
  have h : 0x80 >>> i = 2 ^ (7 - i) := by
    interval_cases i <;> rfl
  rw [h]
  exact and_two_pow_ne_zero p (7 - i)

theorem hits_iff (mem : List Nat) (I x y n : Nat) (r : Fin 32) (c : Fin 64) :
    hits mem I x y n r c ↔
      ∃ j i, j < n ∧ i < 8 ∧ r.val = y + j ∧ c.val = x + i ∧ spriteBit mem I j i := by
  constructor
  · rintro ⟨h1, h2, h3, h4, h5⟩
    refine ⟨r.val - y, c.val - x, by omega, by omega, by omega, by omega, ?_⟩
    exact (bit_test _ _ (by omega)).1 h5
  · rintro ⟨j, i, hj, hi, hr, hc, hbit⟩
    have e1 : r.val - y = j := by omega
    have e2 : c.val - x = i := by omega
    refine ⟨by omega, by omega, by omega, by omega, ?_⟩
    rw [e1, e2]
    exact (bit_test _ _ hi).2 hbit

/-- The machine `loaded []` is the one `InitCPU` returns for the default
options (4096 bytes of memory, 16 stack entries). -/
theorem InitCPU_default :
    InitCPU zeroCPU { MAX_RAM_MEMORY_SIZE := 4096, MAX_STACK_SIZE := 16 } = .ok (loaded []) := by
  have hm : fontSet ++ (List.replicate 4096 0).drop fontSet.length = (loaded []).ramMemory := by
    decide!
  have hl : fontSet.length ≤ (List.replicate 4096 (0 : Nat)).length := by
    rw [List.length_replicate]; decide
  simp only [InitCPU, hl, if_true, hm]
  rfl

/-! ## `InitCPU` and `LoadProgram` -/

/-- The loop of `LoadProgram` in closed form, when the bytes fit. -/
theorem copyProgram_eq (buffer : List Nat) (m : List Nat) (i : Nat)
    (hfit : i + 512 + buffer.length ≤ m.length) :
    ∃ m', copyProgram m i buffer = .ok m' ∧ m'.length = m.length ∧
      (∀ k, k < buffer.length → m'[i + 512 + k]? = buffer[k]?) ∧
      (∀ a, (a < i + 512 ∨ i + 512 + buffer.length ≤ a) → m'[a]? = m[a]?) := by
  induction buffer generalizing m i with
  | nil =>
    refine ⟨m, rfl, rfl, ?_, fun _ _ => rfl⟩
    intro k hk
    cases hk
  | cons b rest ih =>
    simp only [List.length_cons] at hfit
    have hlt : i + 512 < m.length := by omega
    obtain ⟨m', hrun, hlen, hcopy, hkeep⟩ := ih (m.set (i + 512) b) (i + 1)
      (by rw [List.length_set]; omega)
    refine ⟨m', ?_, ?_, ?_, ?_⟩
    · simp only [copyProgram, writeMem, hlt, if_true, bind, Except.bind]
      exact hrun
    · rw [hlen, List.length_set]
    · intro k hk
      cases k with
      | zero =>
        rw [hkeep (i + 512 + 0) (Or.inl (by omega))]
        simp [List.getElem?_set_self hlt]
      | succ k =>
        have h := hcopy k (by simpa using hk)
        have e : i + 512 + (k + 1) = i + 1 + 512 + k := by omega
        rw [e, h]
        simp
    · intro a ha
      rw [hkeep a (by simp only [List.length_cons] at ha; omega)]
      rw [List.getElem?_set_ne]
      simp only [List.length_cons] at ha
      omega

/-! ## The register block of `FX55` -/

theorem mem_take_finRange :
    ∀ X i : Fin 16, i ∈ (List.finRange 16).take (X.val + 1) ↔ i ≤ X := by
  decide!

theorem nodup_take_finRange : ∀ X : Fin 16, ((List.finRange 16).take (X.val + 1)).Nodup := by
  decide!

/-- A run of register stores to distinct addresses inside memory, in closed
form. -/
theorem store_fold (V : Fin 16 → Nat) (I : Nat) (l : List (Fin 16)) (hnd : l.Nodup)
    (m : List Nat) (hlen : m.length ≤ 65535) (hfit : ∀ i ∈ l, i.val + I < m.length) :
    ∃ m', l.foldlM (fun m i => writeMem m ((i.val + I) % 65536) (V i)) m = .ok m' ∧
      m'.length = m.length ∧
      (∀ i ∈ l, m'[i.val + I]? = some (V i)) ∧
      (∀ a, (∀ i ∈ l, a ≠ i.val + I) → m'[a]? = m[a]?) := by
  induction l generalizing m with
  | nil =>
    exact ⟨m, rfl, rfl, fun i hi => (by cases hi), fun _ _ => rfl⟩
  | cons x l ih =>
    rw [List.nodup_cons] at hnd
    have hx : x.val + I < m.length := hfit x (List.mem_cons_self _ _)
    have hmod : (x.val + I) % 65536 = x.val + I := Nat.mod_eq_of_lt (by omega)
    obtain ⟨m', hrun, hlen', hcopy, hkeep⟩ := ih hnd.2 (m.set (x.val + I) (V x))
      (by rw [List.length_set]; exact hlen)
      (fun i hi => by rw [List.length_set]; exact hfit i (List.mem_cons_of_mem _ hi))
    refine ⟨m', ?_, ?_, ?_, ?_⟩
    · simp only [List.foldlM_cons, writeMem, hmod, hx, if_true, bind, Except.bind]
      exact hrun
    · rw [hlen', List.length_set]
    · intro i hi
      rcases List.mem_cons.1 hi with rfl | hi
      · rw [hkeep (i.val + I)]
        · simp [List.getElem?_set_self hx]
        · intro k hk hEq
          have : i = k := Fin.ext (by omega)
          exact hnd.1 (this ▸ hk)
      · exact hcopy i hi
    · intro a ha
      rw [hkeep a (fun i hi => ha i (List.mem_cons_of_mem _ hi))]
      rw [List.getElem?_set_ne]
      exact fun h => ha x (List.mem_cons_self _ _) h.symm

/-- One `Cycle` on `FX55` with the block `I..I+X` inside memory. -/
theorem Cycle_FX55 (rnd : Nat) (s : CPU) (X : Fin 16)
    (hlen : s.ramMemory.length ≤ 65535) (hb : s.beeper = true)
    (hw : holdsWord s.ramMemory s.programCounter (0xF055 + 256 * X.val))
    (hI : s.indexRegister + X.val < s.ramMemory.length) :
    ∃ m, Cycle rnd s = .ok
        { cpu := { s with
            opCode := 0xF055 + 256 * X.val
            ramMemory := m
            indexRegister := X.val + 1
            programCounter := s.programCounter + 2
            delayTimer := s.delayTimer - 1
            soundTimer := s.soundTimer - 1 }
          beeps := if s.soundTimer = 1 then 1 else 0
          invalid := false } ∧
      m.length = s.ramMemory.length ∧
      (∀ k : Fin 16, k ≤ X → m[s.indexRegister + k.val]? = some (s.variableRegister k)) ∧
      (∀ a, (a < s.indexRegister ∨ s.indexRegister + X.val < a) →
        m[a]? = s.ramMemory[a]?) := by
  have hX := X.isLt
  have hbd := holdsWord_bound hw
  have hf := fetch_eq s _ hlen (by omega) hw
  have hfam : (0xF055 + 256 * X.val) &&& 0xF000 = 0xF000 := by rw [and_F000]; omega
  have hlow : (0xF055 + 256 * X.val) &&& 0x00FF = 0x0055 := by rw [and_00FF]; omega
  have hx : opX (0xF055 + 256 * X.val) = X := Fin.ext (by rw [opX_val]; omega)
  have hpc : (s.programCounter + 2) % 65536 = s.programCounter + 2 :=
    Nat.mod_eq_of_lt (by omega)
  have hx1 : (X.val + 1) % 65536 = X.val + 1 := Nat.mod_eq_of_lt (by omega)
  obtain ⟨m, hrun, hlen', hcopy, hkeep⟩ := store_fold s.variableRegister s.indexRegister
    ((List.finRange 16).take (X.val + 1)) (nodup_take_finRange X) s.ramMemory hlen
    (fun i hi => by
      have : i ≤ X := (mem_take_finRange X i).1 hi
      have : i.val ≤ X.val := this
      omega)
  refine ⟨m, ?_, hlen', ?_, ?_⟩
  · have he : execute rnd { s with opCode := 0xF055 + 256 * X.val } =
        done { s with
          opCode := 0xF055 + 256 * X.val
          ramMemory := m
          indexRegister := X.val + 1
          programCounter := s.programCounter + 2 } := by
      simp [execute, execF, hfam, hlow, hx, storeRegs, hrun, bind, Except.bind, advance, hpc,
        hx1]
    exact Cycle_done rnd s _ _ hf he hb
  · intro k hk
    have h := hcopy k ((mem_take_finRange X k).2 hk)
    rw [Nat.add_comm]
    exact h
  · intro a ha
    apply hkeep
    intro i hi hEq
    have : i ≤ X := (mem_take_finRange X i).1 hi
    have : i.val ≤ X.val := this
    omega

/-! ## The beeper -/

/-- The two ways a completed `Cycle` ends: the early return of `FX0A`, or the
timer tick. -/
theorem Cycle_cases (rnd : Nat) (s : CPU) (w : Nat) (o : Outcome)
    (hf : fetch s = .ok w) (ho : Cycle rnd s = .ok o) :
    ∃ e, execute rnd { s with opCode := w } = .ok e ∧
      ((e.early = true ∧ o = { cpu := e.cpu, beeps := 0, invalid := e.invalid }) ∨
       (e.early = false ∧ ∃ t, tick e.cpu = .ok t ∧
          o = { cpu := t.1, beeps := t.2, invalid := e.invalid })) := by
  rw [Cycle_eq rnd s w hf] at ho
  cases hx : execute rnd { s with opCode := w } with
  | error f => rw [hx] at ho; cases ho
  | ok e =>
    rw [hx] at ho
    refine ⟨e, rfl, ?_⟩
    cases hE : e.early with
    | true =>
      simp only [hE, if_true] at ho
      cases ho
      exact Or.inl ⟨rfl, rfl⟩
    | false =>
      simp only [hE, Bool.false_eq_true, if_false] at ho
      cases ht : tick e.cpu with
      | error f => rw [ht] at ho; cases ho
      | ok t =>
        rw [ht] at ho
        cases ho
        exact Or.inr ⟨rfl, t, rfl, rfl⟩

theorem tick_beeps (c c' : CPU) (n : Nat) (h : tick c = .ok (c', n)) :
    n = if c.soundTimer = 1 then 1 else 0 := by
  unfold tick at h
  by_cases h1 : c.delayTimer > 0 <;> by_cases h2 : c.soundTimer > 0 <;>
    by_cases h3 : c.soundTimer = 1 <;> by_cases h4 : c.beeper = true <;>
    simp [h1, h2, h3, h4] at h <;>
    (obtain ⟨_, rfl⟩ := h; simp [h3])

/-- No `Cycle` calls the beeper more than once. -/
theorem Cycle_beeps_le_one (rnd : Nat) (s : CPU) (o : Outcome) (ho : Cycle rnd s = .ok o) :
    o.beeps ≤ 1 := by
  cases hf : fetch s with
  | error f =>
    simp only [Cycle, hf, bind, Except.bind] at ho
    cases ho
  | ok w =>
    obtain ⟨e, _, h | h⟩ := Cycle_cases rnd s w o hf ho
    · rw [h.2]
      exact Nat.zero_le 1
    · obtain ⟨_, t, ht, rfl⟩ := h
      have := tick_beeps e.cpu t.1 t.2 ht
      show t.2 ≤ 1
      rw [this]
      split <;> omega

/-- A completed `Cycle` that is neither `FX18` nor an idle `FX0A` counts the
sound timer down and beeps exactly when it was 1. -/
theorem Cycle_sound (rnd : Nat) (s : CPU) (w : Nat) (o : Outcome)
    (hf : fetch s = .ok w) (ho : Cycle rnd s = .ok o)
    (h18 : ¬(w / 4096 % 16 = 0xF ∧ w % 256 = 0x18))
    (hidle : ¬(w / 4096 % 16 = 0xF ∧ w % 256 = 0x0A ∧ ∀ i, s.key i = 0)) :
    o.cpu.soundTimer = s.soundTimer - 1 ∧
    o.beeps = (if s.soundTimer = 1 then 1 else 0) := by
  obtain ⟨e, hx, h⟩ := Cycle_cases rnd s w o hf ho
  obtain ⟨hearly, -, hs⟩ := execute_timers rnd { s with opCode := w } e hx
  have hfam := and_F000 w
  have hlow := and_00FF w
  simp only [] at hearly hs
  rw [hlow] at hearly hs
  have hs' : e.cpu.soundTimer = s.soundTimer := hs (fun h => h18 ⟨by omega, h.2⟩)
  rcases h with ⟨hE, -⟩ | ⟨-, t, ht, rfl⟩
  · have hi := hearly.1 hE
    exact absurd ⟨by omega, hi.2.1, hi.2.2⟩ hidle
  · have h1 := (tick_timers e.cpu t.1 t.2 ht).2
    have h2 := tick_beeps e.cpu t.1 t.2 ht
    rw [hs'] at h1 h2
    exact ⟨h1, h2⟩

theorem quietRun_shorter (k : Nat) : ∀ (j : Nat) (rnd : Nat → Nat) (s : CPU),
    j ≤ k → quietRun rnd k s → quietRun rnd j s := by
  induction k with
  | zero =>
    intro j rnd s hj _
    have : j = 0 := by omega
    subst this
    trivial
  | succ k ih =>
    intro j rnd s hj hq
    cases j with
    | zero => trivial
    | succ j =>
      obtain ⟨w, o, hf, h18, hidle, ho, hrest⟩ := hq
      exact ⟨w, o, hf, h18, hidle, ho, ih j _ o.cpu (by omega) hrest⟩

/-- The beeps of a quiet run: one if the sound timer passes from 1 to 0 within
the run, none otherwise. -/
theorem quietRun_beeps (k : Nat) : ∀ (rnd : Nat → Nat) (s : CPU), quietRun rnd k s →
    ∃ s' b, cycles rnd k s = .ok (s', b) ∧ s'.soundTimer = s.soundTimer - k ∧
      b = (if 1 ≤ s.soundTimer ∧ s.soundTimer ≤ k then 1 else 0) := by
  induction k with
  | zero =>
    intro rnd s _
    refine ⟨s, 0, rfl, rfl, ?_⟩
    rw [if_neg]
    omega
  | succ k ih =>
    intro rnd s hq
    obtain ⟨w, o, hf, h18, hidle, ho, hrest⟩ := hq
    obtain ⟨hs, hbeep⟩ := Cycle_sound (rnd 0) s w o hf ho h18 hidle
    obtain ⟨s', b, hrun, hs', hb⟩ := ih (fun n => rnd (n + 1)) o.cpu hrest
    refine ⟨s', o.beeps + b, cycles_succ rnd k s o s' b ho hrun, ?_, ?_⟩
    · rw [hs', hs]
      omega
    · rw [hbeep, hb, hs]
      by_cases h1 : s.soundTimer = 1
      · rw [if_pos h1, if_neg (by omega), if_pos (by omega)]
      · rw [if_neg h1]
        by_cases h2 : 1 ≤ s.soundTimer - 1 ∧ s.soundTimer - 1 ≤ k
        · rw [if_pos h2, if_pos (by omega)]
        · rw [if_neg h2, if_neg (by omega)]

/-- A run over consecutive `00E0` words is quiet. -/
theorem quietRun_00E0 (n : Nat) (rnd : Nat → Nat) (s : CPU)
    (hlen : s.ramMemory.length ≤ 65535) (hb : s.beeper = true)
    (hw : ∀ k, k < n → holdsWord s.ramMemory (s.programCounter + 2 * k) 0x00E0) :
    quietRun rnd n s := by
  induction n generalizing rnd s with
  | zero => trivial
  | succ n ih =>
    have h0 := hw 0 (by omega)
    refine ⟨0x00E0, _, fetch_eq s _ hlen (by decide) h0, by decide,
      fun h => absurd h.1 (by decide),
      Cycle_00E0 (rnd 0) s hlen hb h0, ?_⟩
    exact ih (fun k => rnd (k + 1)) _ hlen hb (fun k hk => by
      have h := hw (k + 1) (by omega)
      have e : s.programCounter + 2 * (k + 1) = s.programCounter + 2 + 2 * k := by omega
      rw [e] at h
      exact h)

/-! ## Faults of the sprite loops -/

/-- A loop whose passes succeed or fail with `e` succeeds or fails with `e`. -/
theorem foldlM_range_okOr {σ : Type} (f : σ → Nat → Except Fault σ) (e : Fault) (n : Nat)
    (h : ∀ st k, k < n → (∃ st', f st k = .ok st') ∨ f st k = .error e) :
    ∀ st, (∃ st', (List.range n).foldlM f st = .ok st') ∨
      (List.range n).foldlM f st = .error e := by
  induction n with
  | zero => exact fun st => Or.inl ⟨st, rfl⟩
  | succ n ih =>
    intro st
    rw [List.range_succ, List.foldlM_append]
    rcases ih (fun st k hk => h st k (by omega)) st with ⟨st', hst⟩ | herr
    · rw [hst]
      simp only [bind, Except.bind, List.foldlM_cons, List.foldlM_nil, pure, Except.pure]
      rcases h st' n (by omega) with ⟨st'', hok⟩ | herr
      · rw [hok]; exact Or.inl ⟨st'', rfl⟩
      · rw [herr]; exact Or.inr rfl
    · rw [herr]
      exact Or.inr rfl

/-- A loop with a pass `j` that always fails with `e`, after passes that succeed
or fail with `e`, fails with `e`. -/
theorem foldlM_range_bad {σ : Type} (f : σ → Nat → Except Fault σ) (e : Fault) (j : Nat)
    (h : ∀ st k, k < j → (∃ st', f st k = .ok st') ∨ f st k = .error e)
    (hbad : ∀ st, f st j = .error e) (n : Nat) (hj : j < n) :
    ∀ st, (List.range n).foldlM f st = .error e := by
  induction n with
  | zero => omega
  | succ n ih =>
    intro st
    rw [List.range_succ, List.foldlM_append]
    by_cases hjn : j < n
    · rw [ih hjn st]
      rfl
    · have hjeq : j = n := by omega
      subst hjeq
      rcases foldlM_range_okOr f e j h st with ⟨st', hst⟩ | herr
      · rw [hst]
        simp only [bind, Except.bind, List.foldlM_cons, List.foldlM_nil, pure, Except.pure]
        rw [hbad st']
      · rw [herr]
        rfl

theorem drawPixel_okOr (x y p j i : Nat) (st : Screen × Nat) :
    (∃ st', drawPixel x y p j i st = .ok st') ∨ drawPixel x y p j i st = .error .display := by
  unfold drawPixel
  by_cases hb : p &&& (0x80 >>> i) ≠ 0
  · rw [if_pos hb]
    by_cases hr : (y + j % 256) % 256 < 32
    · by_cases hc : (x + i % 256) % 256 < 64
      · rw [dif_pos hr, dif_pos hc]
        exact Or.inl ⟨_, rfl⟩
      · rw [dif_pos hr, dif_neg hc]
        exact Or.inr rfl
    · rw [dif_neg hr]
      exact Or.inr rfl
  · rw [if_neg hb]
    exact Or.inl ⟨st, rfl⟩

theorem drawPixel_bad (x y p j i : Nat) (st : Screen × Nat) (hb : p &&& (0x80 >>> i) ≠ 0)
    (hout : 32 ≤ (y + j % 256) % 256 ∨ 64 ≤ (x + i % 256) % 256) :
    drawPixel x y p j i st = .error .display := by
  unfold drawPixel
  rw [if_pos hb]
  by_cases hr : (y + j % 256) % 256 < 32
  · have hc : ¬(x + i % 256) % 256 < 64 := by omega
    rw [dif_pos hr, dif_neg hc]
  · rw [dif_neg hr]

theorem drawRow_okOr (mem : List Nat) (I x y j : Nat) (st : Screen × Nat)
    (hmem : (I + j) % 65536 < mem.length) :
    (∃ st', drawRow mem I x y st j = .ok st') ∨ drawRow mem I x y st j = .error .display := by
  unfold drawRow readMem
  rw [List.getElem?_eq_getElem hmem]
  simp only [bind, Except.bind]
  exact foldlM_range_okOr _ _ 8 (fun st k _ => drawPixel_okOr x y _ j k st) st

/-- A sprite with a set bit whose `uint8` target coordinates leave the display
makes the loops fail on the display. -/
theorem drawSprite_bad (mem : List Nat) (I x y n j i : Nat) (st : Screen × Nat)
    (hlen : mem.length ≤ 65535) (hj : j < n) (hj' : j < 256) (hi : i < 8)
    (hmem : I + j < mem.length) (hbit : spriteBit mem I j i)
    (hout : 32 ≤ (y + j) % 256 ∨ 64 ≤ (x + i) % 256) :
    drawSprite mem I x y n st = .error .display := by
  unfold drawSprite
  refine foldlM_range_bad (drawRow mem I x y) .display j ?_ ?_ n hj st
  · intro st k hk
    exact drawRow_okOr mem I x y k st (by
      have : (I + k) % 65536 = I + k := Nat.mod_eq_of_lt (by omega)
      omega)
  · intro st
    have hmod : (I + j) % 65536 = I + j := Nat.mod_eq_of_lt (by omega)
    have hget : mem[I + j]? = some (mem.getD (I + j) 0) := by
      rw [List.getD_eq_getElem?_getD, List.getElem?_eq_getElem hmem]
      rfl
    unfold drawRow readMem
    rw [hmod, hget]
    simp only [bind, Except.bind]
    refine foldlM_range_bad _ .display i
      (fun st k _ => drawPixel_okOr x y _ j k st) ?_ 8 hi st
    intro st
    apply drawPixel_bad
    · exact (bit_test _ _ hi).2 hbit
    · have e1 : j % 256 = j := Nat.mod_eq_of_lt hj'
      have e2 : i % 256 = i := Nat.mod_eq_of_lt (by omega)
      rw [e1, e2]
      exact hout

/-! ## Family `0x8000` in general -/

/-- Decoding of a word `8XYk`. -/
theorem decode_8XYk (X Y : Fin 16) (k : Nat) (hk : k < 16) :
    (0x8000 + 256 * X.val + 16 * Y.val + k) &&& 0xF000 = 0x8000 ∧
    (0x8000 + 256 * X.val + 16 * Y.val + k) &&& 0x000F = k ∧
    opX (0x8000 + 256 * X.val + 16 * Y.val + k) = X ∧
    opY (0x8000 + 256 * X.val + 16 * Y.val + k) = Y := by
  have hX := X.isLt
  have hY := Y.isLt
  refine ⟨?_, ?_, Fin.ext ?_, Fin.ext ?_⟩
  · rw [and_F000]; omega
  · rw [and_000F]; omega
  · rw [opX_val]; omega
  · rw [opY_val]; omega

/-- One `Cycle` on a word `8XYk` whose branch assigns the registers `V'`. -/
theorem Cycle_8XYk (rnd : Nat) (s : CPU) (X Y : Fin 16) (k : Nat) (hk : k < 16)
    (hlen : s.ramMemory.length ≤ 65535) (hb : s.beeper = true)
    (hw : holdsWord s.ramMemory s.programCounter (0x8000 + 256 * X.val + 16 * Y.val + k))
    (V' : Fin 16 → Nat)
    (he : exec8 { s with opCode := 0x8000 + 256 * X.val + 16 * Y.val + k } =
      done (advance { s with opCode := 0x8000 + 256 * X.val + 16 * Y.val + k,
                             variableRegister := V' } 2)) :
    Cycle rnd s = .ok
      { cpu := { s with
          opCode := 0x8000 + 256 * X.val + 16 * Y.val + k
          variableRegister := V'
          programCounter := s.programCounter + 2
          delayTimer := s.delayTimer - 1
          soundTimer := s.soundTimer - 1 }
        beeps := if s.soundTimer = 1 then 1 else 0
        invalid := false } := by
  have hX := X.isLt
  have hY := Y.isLt
  have hbd := holdsWord_bound hw
  have hf := fetch_eq s _ hlen (by omega) hw
  have hpc : (s.programCounter + 2) % 65536 = s.programCounter + 2 :=
    Nat.mod_eq_of_lt (by omega)
  have hex : execute rnd { s with opCode := 0x8000 + 256 * X.val + 16 * Y.val + k } =
      done { s with
        opCode := 0x8000 + 256 * X.val + 16 * Y.val + k
        variableRegister := V'
        programCounter := s.programCounter + 2 } := by
    have h := (decode_8XYk X Y k hk).1
    simp only [execute, h]
    simp only [show ¬((0x8000 : Nat) = 0x0000) by decide, show ¬((0x8000 : Nat) = 0x1000) by decide,
      show ¬((0x8000 : Nat) = 0x2000) by decide, show ¬((0x8000 : Nat) = 0x3000) by decide,
      show ¬((0x8000 : Nat) = 0x4000) by decide, show ¬((0x8000 : Nat) = 0x5000) by decide,
      show ¬((0x8000 : Nat) = 0x6000) by decide, show ¬((0x8000 : Nat) = 0x7000) by decide,
      if_false, if_true, he, advance, hpc]
  exact Cycle_done rnd s _ _ hf hex hb

/-- The registers after `8XY6`, `8XY7` and `8XYE`. -/
theorem exec8_67E (s : CPU) (X Y : Fin 16) (k : Nat) (hk : k = 6 ∨ k = 7 ∨ k = 0xE) :
    exec8 { s with opCode := 0x8000 + 256 * X.val + 16 * Y.val + k } =
      done (advance { s with
        opCode := 0x8000 + 256 * X.val + 16 * Y.val + k
        variableRegister :=
          if k = 6 then
            setReg (setReg s.variableRegister 0xF (s.variableRegister X &&& 0x1)) X
              (setReg s.variableRegister 0xF (s.variableRegister X &&& 0x1) X >>> 1)
          else if k = 7 then
            setReg (setReg s.variableRegister 0xF
                (if s.variableRegister X > s.variableRegister Y then 0 else 1)) X
              ((setReg s.variableRegister 0xF
                  (if s.variableRegister X > s.variableRegister Y then 0 else 1) Y + 256 -
                setReg s.variableRegister 0xF
                  (if s.variableRegister X > s.variableRegister Y then 0 else 1) X) % 256)
          else
            setReg (setReg s.variableRegister 0xF (s.variableRegister X >>> 7)) X
              ((setReg s.variableRegister 0xF (s.variableRegister X >>> 7) X <<< 1) % 256) }
        2) := by
  obtain ⟨-, hlow, hx, hy⟩ := decode_8XYk X Y k (by omega)
  rcases hk with rfl | rfl | rfl
  · simp only [exec8, hlow, hx, hy]
    simp
  · simp only [exec8, hlow, hx, hy]
    by_cases hc : s.variableRegister X > s.variableRegister Y <;> simp [hc]
  · simp only [exec8, hlow, hx, hy]
    simp

/-- The registers after `8XY4` and `8XY5`. -/
theorem exec8_45 (s : CPU) (X Y : Fin 16) (k : Nat) (hk : k = 4 ∨ k = 5) :
    exec8 { s with opCode := 0x8000 + 256 * X.val + 16 * Y.val + k } =
      done (advance { s with
        opCode := 0x8000 + 256 * X.val + 16 * Y.val + k
        variableRegister :=
          if k = 4 then
            setReg (setReg s.variableRegister 0xF
                (if s.variableRegister Y > 0xFF - s.variableRegister X then 1 else 0)) X
              ((setReg s.variableRegister 0xF
                  (if s.variableRegister Y > 0xFF - s.variableRegister X then 1 else 0) X +
                setReg s.variableRegister 0xF
                  (if s.variableRegister Y > 0xFF - s.variableRegister X then 1 else 0) Y)
                % 256)
          else
            setReg (setReg s.variableRegister 0xF
                (if s.variableRegister Y > s.variableRegister X then 0 else 1)) X
              ((setReg s.variableRegister 0xF
                  (if s.variableRegister Y > s.variableRegister X then 0 else 1) X + 256 -
                setReg s.variableRegister 0xF
                  (if s.variableRegister Y > s.variableRegister X then 0 else 1) Y) % 256) }
        2) := by
  obtain ⟨-, hlow, hx, hy⟩ := decode_8XYk X Y k (by omega)
  rcases hk with rfl | rfl
  · simp only [exec8, hlow, hx, hy]
    by_cases hc : s.variableRegister Y > 0xFF - s.variableRegister X <;> simp [hc]
  · simp only [exec8, hlow, hx, hy]
    by_cases hc : s.variableRegister Y > s.variableRegister X <;> simp [hc]

/-! ## The display holds bits -/

theorem foldlM_invariant {σ α : Type} (P : σ → Prop) (f : σ → α → Except Fault σ)
    (h : ∀ st a st', f st a = .ok st' → P st → P st') (l : List α) :
    ∀ st st', l.foldlM f st = .ok st' → P st → P st' := by
  induction l with
  | nil =>
    intro st st' hrun hP
    cases hrun
    exact hP
  | cons a l ih =>
    intro st st' hrun hP
    rw [List.foldlM_cons] at hrun
    cases hstep : f st a with
    | error e =>
      rw [hstep] at hrun
      cases hrun
    | ok st1 =>
      rw [hstep] at hrun
      exact ih st1 st' hrun (h st a st1 hstep hP)

theorem drawPixel_binary (x y p j i : Nat) (st st' : Screen × Nat)
    (h : drawPixel x y p j i st = .ok st') (hb : BinaryScreen st.1) : BinaryScreen st'.1 := by
  unfold drawPixel at h
  by_cases hbit : p &&& (0x80 >>> i) ≠ 0
  · rw [if_pos hbit] at h
    by_cases hr : (y + j % 256) % 256 < 32
    · by_cases hc : (x + i % 256) % 256 < 64
      · rw [dif_pos hr, dif_pos hc] at h
        cases h
        intro r c
        show setCell st.1 _ _ _ r c = 0 ∨ setCell st.1 _ _ _ r c = 1
        unfold setCell
        split
        · rcases hb ⟨(y + j % 256) % 256, hr⟩ ⟨(x + i % 256) % 256, hc⟩ with h0 | h1
          · rw [h0]; exact Or.inr rfl
          · rw [h1]; exact Or.inl rfl
        · exact hb r c
      · rw [dif_pos hr, dif_neg hc] at h
        cases h
    · rw [dif_neg hr] at h
      cases h
  · rw [if_neg hbit] at h
    cases h
    exact hb

theorem drawSprite_binary (mem : List Nat) (I x y n : Nat) (st st' : Screen × Nat)
    (h : drawSprite mem I x y n st = .ok st') (hb : BinaryScreen st.1) : BinaryScreen st'.1 := by
  unfold drawSprite at h
  refine foldlM_invariant (fun st => BinaryScreen st.1) (drawRow mem I x y) ?_ _ st st' h hb
  intro st j st' hrow hb
  unfold drawRow at hrow
  cases hread : readMem mem ((I + j) % 65536) with
  | error e =>
    rw [hread] at hrow
    cases hrow
  | ok p =>
    rw [hread] at hrow
    exact foldlM_invariant (fun st => BinaryScreen st.1) _
      (fun st i st' hpix hb => drawPixel_binary x y p j i st st' hpix hb) _ st st' hrow hb

theorem exec0_binary (c : CPU) (hc : BinaryScreen c.display) :
    Ensures (exec0 c) (fun e => BinaryScreen e.cpu.display) := by
  unfold exec0
  refine Ensures.ite (fun _ => Ensures.done (fun _ _ => Or.inl rfl))
    (fun _ => Ensures.ite (fun _ => ?_) (fun _ => Ensures.invalidOp hc))
  simp only []
  split
  · exact Ensures.done hc
  · exact Ensures.error

theorem exec8_binary (c : CPU) (hc : BinaryScreen c.display) :
    Ensures (exec8 c) (fun e => BinaryScreen e.cpu.display) := by
  unfold exec8
  repeat (first
    | exact Ensures.done hc
    | exact Ensures.invalidOp hc
    | refine Ensures.ite (fun _ => ?_) (fun _ => ?_))

theorem execD_binary (c : CPU) (hc : BinaryScreen c.display) :
    Ensures (execD c) (fun e => BinaryScreen e.cpu.display) := by
  unfold execD
  simp only []
  cases hdraw : drawSprite c.ramMemory c.indexRegister (c.variableRegister (opX c.opCode))
      (c.variableRegister (opY c.opCode)) (c.opCode &&& 0x000F) (c.display, 0) with
  | error e => exact Ensures.error
  | ok st =>
    exact Ensures.done (drawSprite_binary _ _ _ _ _ (c.display, 0) st hdraw hc)

theorem execE_binary (c : CPU) (hc : BinaryScreen c.display) :
    Ensures (execE c) (fun e => BinaryScreen e.cpu.display) := by
  unfold execE
  repeat (first
    | exact Ensures.done hc
    | exact Ensures.invalidOp hc
    | refine Ensures.ite (fun _ => ?_) (fun _ => ?_)
    | refine Ensures.bind (fun _ => ?_))

theorem execF_binary (c : CPU) (hc : BinaryScreen c.display) :
    Ensures (execF c) (fun e => BinaryScreen e.cpu.display) := by
  unfold execF
  simp only []
  repeat (first
    | exact Ensures.done hc
    | exact Ensures.invalidOp hc
    | exact Ensures.ok hc
    | exact Ensures.error
    | refine Ensures.ite (fun _ => ?_) (fun _ => ?_)
    | refine Ensures.bind (fun _ => ?_))

theorem execute_binary (rnd : Nat) (c : CPU) (hc : BinaryScreen c.display) :
    Ensures (execute rnd c) (fun e => BinaryScreen e.cpu.display) := by
  unfold execute
  simp only []
  repeat (first
    | exact exec0_binary c hc
    | exact exec8_binary c hc
    | exact execD_binary c hc
    | exact execE_binary c hc
    | exact execF_binary c hc
    | exact Ensures.done hc
    | exact Ensures.invalidOp hc
    | exact Ensures.error
    | refine Ensures.ite (fun _ => ?_) (fun _ => ?_))

theorem tick_display (c c' : CPU) (n : Nat) (h : tick c = .ok (c', n)) :
    c'.display = c.display := by
  unfold tick at h
  by_cases h1 : c.delayTimer > 0 <;> by_cases h2 : c.soundTimer > 0 <;>
    by_cases h3 : c.soundTimer = 1 <;> by_cases h4 : c.beeper = true <;>
    simp [h1, h2, h3, h4] at h <;>
    (obtain ⟨rfl, _⟩ := h; rfl)

/-- A completed `Cycle` keeps the display made of bits. -/
theorem Cycle_binary (rnd : Nat) (s : CPU) (o : Outcome) (ho : Cycle rnd s = .ok o)
    (hs : BinaryScreen s.display) : BinaryScreen o.cpu.display := by
  cases hf : fetch s with
  | error f =>
    simp only [Cycle, hf, bind, Except.bind] at ho
    cases ho
  | ok w =>
    obtain ⟨e, hx, h⟩ := Cycle_cases rnd s w o hf ho
    have he : BinaryScreen e.cpu.display := execute_binary rnd { s with opCode := w } hs e hx
    rcases h with ⟨-, rfl⟩ | ⟨-, t, ht, rfl⟩
    · exact he
    · show BinaryScreen t.1.display
      rw [tick_display e.cpu t.1 t.2 ht]
      exact he

theorem Key_display (s s' : CPU) (num : Nat) (down : Bool) (h : Key s num down = .ok s') :
    s'.display = s.display := by
  unfold Key at h
  by_cases hn : num < 16
  · rw [dif_pos hn] at h
    cases down <;> (simp only [Bool.false_eq_true, if_false, if_true] at h; cases h; rfl)
  · rw [dif_neg hn] at h
    cases h

theorem LoadProgram_display (s s' : CPU) (b : List Nat) (err : Option LoadError)
    (h : LoadProgram s b = .ok (s', err)) : s'.display = s.display := by
  unfold LoadProgram at h
  split at h
  · cases h; rfl
  · cases hc : copyProgram s.ramMemory 0 b with
    | error e =>
      rw [hc] at h
      cases h
    | ok m =>
      rw [hc] at h
      cases h
      rfl

/-! ## The claims -/

/-- C1 (the code at the failing input): the program `60EA A300 F033` on a
fresh machine executes `FX33` with V0 = 234 and I = 0x300 and stores 2, 3, 3 at
0x300..0x302; the ones digit 234 % 10 = 4 is not stored. -/
theorem FX33_stores_tens_twice :
    (afterCycles 3 (loaded bcdProgram)).map
        (fun c => [c.ramMemory[0x300]?, c.ramMemory[0x301]?, c.ramMemory[0x302]?])
      = some [some 2, some 3, some 3] ∧
    [234 / 100, (234 / 10) % 10, 234 % 10] = [2, 3, 4] := by
  decide!

/-- C2 (counterexample): `F30A` with no key pressed, delay timer 5 and sound
timer 7: the instruction is neither `FX15` nor `FX18`, the `Cycle` completes, and
both timers are still 5 and 7 (the claim says 4 and 6). -/
theorem FX0A_idle_skips_tick :
    holdsWord idleState.ramMemory idleState.programCounter 0xF30A ∧
    (∀ k, idleState.key k = 0) ∧
    (idleState.delayTimer, idleState.soundTimer) = (5, 7) ∧
    (afterCycles 1 idleState).map (fun c => (c.delayTimer, c.soundTimer)) = some (5, 7) := by
  decide!

/-- C2 (amended): when `Cycle` completes on a fetched word `w` that is neither
`FX15` nor `FX18`, then, unless `w` is `FX0A` executed while no key is pressed,
each timer is its old value minus 1 if that was nonzero and 0 otherwise; on
`FX0A` with no key pressed `Cycle` returns before the tick and both timers keep
their values. -/
theorem timers_tick_unless_waiting (rnd : Nat) (s : CPU) (w : Nat) (o : Outcome)
    (hf : fetch s = .ok w) (ho : Cycle rnd s = .ok o)
    (h15 : ¬(w / 4096 % 16 = 0xF ∧ w % 256 = 0x15))
    (h18 : ¬(w / 4096 % 16 = 0xF ∧ w % 256 = 0x18)) :
    (¬(w / 4096 % 16 = 0xF ∧ w % 256 = 0x0A ∧ ∀ k, s.key k = 0) →
      o.cpu.delayTimer = (if s.delayTimer ≠ 0 then s.delayTimer - 1 else 0) ∧
      o.cpu.soundTimer = (if s.soundTimer ≠ 0 then s.soundTimer - 1 else 0)) ∧
    ((w / 4096 % 16 = 0xF ∧ w % 256 = 0x0A ∧ ∀ k, s.key k = 0) →
      o.cpu.delayTimer = s.delayTimer ∧ o.cpu.soundTimer = s.soundTimer) := by
  rw [Cycle_eq rnd s w hf] at ho
  have hex := execute_timers rnd { s with opCode := w }
  cases hx : execute rnd { s with opCode := w } with
  | error f => rw [hx] at ho; cases ho
  | ok e =>
    rw [hx] at ho
    obtain ⟨hearly, hd, hs⟩ := hex e hx
    have hfam := and_F000 w
    have hlow := and_00FF w
    simp only [] at hearly hd hs
    rw [hlow] at hearly hd hs
    have hd' : e.cpu.delayTimer = s.delayTimer := hd (fun h => h15 ⟨by omega, h.2⟩)
    have hs' : e.cpu.soundTimer = s.soundTimer := hs (fun h => h18 ⟨by omega, h.2⟩)
    cases hE : e.early with
    | true =>
      have hidle := hearly.1 hE
      simp only [hE, if_true] at ho
      cases ho
      refine ⟨fun hn => absurd ⟨by omega, hidle.2.1, hidle.2.2⟩ hn, fun _ => ⟨hd', hs'⟩⟩
    | false =>
      have hnot : ¬(w / 4096 % 16 = 0xF ∧ w % 256 = 0x0A ∧ ∀ k, s.key k = 0) := by
        intro hi
        have := hearly.2 ⟨by omega, hi.2.1, hi.2.2⟩
        rw [hE] at this
        cases this
      simp only [hE, Bool.false_eq_true, if_false] at ho
      cases ht : tick e.cpu with
      | error f => rw [ht] at ho; cases ho
      | ok t =>
        rw [ht] at ho
        cases ho
        obtain ⟨t1, t2⟩ := tick_timers e.cpu t.1 t.2 ht
        refine ⟨fun _ => ⟨?_, ?_⟩, fun hi => absurd hi hnot⟩
        · show t.1.delayTimer = _
          rw [t1, hd']
          split <;> omega
        · show t.1.soundTimer = _
          rw [t2, hs']
          split <;> omega

/-- Witness of C2: `00E0` with delay timer 5 and sound timer 1. -/
theorem timers_tick_unless_waiting_witness :
    fetch timerState = .ok 0x00E0 ∧
    ¬((0x00E0 : Nat) / 4096 % 16 = 0xF ∧ (0x00E0 : Nat) % 256 = 0x15) ∧
    ¬((0x00E0 : Nat) / 4096 % 16 = 0xF ∧ (0x00E0 : Nat) % 256 = 0x18) ∧
    ∃ o, Cycle 0 timerState = .ok o ∧
      (¬((0x00E0 : Nat) / 4096 % 16 = 0xF ∧ (0x00E0 : Nat) % 256 = 0x0A ∧
          ∀ k, timerState.key k = 0) →
        o.cpu.delayTimer = (if timerState.delayTimer ≠ 0 then timerState.delayTimer - 1 else 0) ∧
        o.cpu.soundTimer
          = (if timerState.soundTimer ≠ 0 then timerState.soundTimer - 1 else 0)) ∧
      ((0x00E0 : Nat) / 4096 % 16 = 0xF ∧ (0x00E0 : Nat) % 256 = 0x0A ∧
          (∀ k, timerState.key k = 0) →
        o.cpu.delayTimer = timerState.delayTimer ∧ o.cpu.soundTimer = timerState.soundTimer) :=
  ⟨fetch_eq timerState _ (by decide!) (by decide) (by decide!), by decide, by decide,
    _, Cycle_00E0 0 timerState (by decide!) rfl (by decide!),
    timers_tick_unless_waiting 0 timerState 0x00E0 _
      (fetch_eq timerState _ (by decide!) (by decide) (by decide!))
      (Cycle_00E0 0 timerState (by decide!) rfl (by decide!)) (by decide) (by decide)⟩

/-- C3: on `FX0A` with all 16 keys unpressed, `n` consecutive calls of `Cycle`
complete and leave the program counter, the V registers, the index register,
memory, the display, the stack and the stack pointer as they were. -/
theorem FX0A_idle_run_frame (n : Nat) (rnd : Nat → Nat) (s : CPU) (X : Fin 16)
    (hlen : s.ramMemory.length ≤ 65535)
    (hw : holdsWord s.ramMemory s.programCounter (0xF00A + 256 * X.val))
    (hk : ∀ k, s.key k = 0) :
    ∃ s' b, cycles rnd n s = .ok (s', b) ∧
      s'.programCounter = s.programCounter ∧
      s'.variableRegister = s.variableRegister ∧
      s'.indexRegister = s.indexRegister ∧
      s'.ramMemory = s.ramMemory ∧
      s'.display = s.display ∧
      s'.stack = s.stack ∧
      s'.stackPointer = s.stackPointer := by
  obtain ⟨w, h⟩ := cycles_FX0A_idle n rnd s X hlen hw hk
  exact ⟨_, _, h, rfl, rfl, rfl, rfl, rfl, rfl, rfl⟩

/-- Witness of C3: three cycles of `F30A` at 0x200 with no key pressed. -/
theorem FX0A_idle_run_frame_witness :
    idleState.ramMemory.length ≤ 65535 ∧
    holdsWord idleState.ramMemory idleState.programCounter (0xF00A + 256 * (3 : Fin 16).val) ∧
    (∀ k, idleState.key k = 0) ∧
    ∃ s' b, cycles (fun _ => 0) 3 idleState = .ok (s', b) ∧
      s'.programCounter = idleState.programCounter ∧
      s'.variableRegister = idleState.variableRegister ∧
      s'.indexRegister = idleState.indexRegister ∧
      s'.ramMemory = idleState.ramMemory ∧
      s'.display = idleState.display ∧
      s'.stack = idleState.stack ∧
      s'.stackPointer = idleState.stackPointer :=
  ⟨by decide!, by decide!, fun _ => rfl,
    FX0A_idle_run_frame 3 (fun _ => 0) idleState 3 (by decide!) (by decide!) (fun _ => rfl)⟩

/-- C4: on `FX0A` with at least one key pressed, one `Cycle` completes, sets VX
to the largest index whose key is pressed, advances PC by exactly 2 and changes
no other V register. -/
theorem FX0A_takes_highest_key (rnd : Nat) (s : CPU) (X : Fin 16)
    (hlen : s.ramMemory.length ≤ 65535) (hb : s.beeper = true)
    (hw : holdsWord s.ramMemory s.programCounter (0xF00A + 256 * X.val))
    (hk : ∃ k, s.key k ≠ 0) :
    ∃ o k, Cycle rnd s = .ok o ∧
      s.key k ≠ 0 ∧ (∀ j, s.key j ≠ 0 → j ≤ k) ∧
      o.cpu.variableRegister X = k.val ∧
      o.cpu.programCounter = s.programCounter + 2 ∧
      ∀ r, r ≠ X → o.cpu.variableRegister r = s.variableRegister r := by
  obtain ⟨k, hk0, hmax, o, ho, hV, hpc⟩ := Cycle_FX0A_key rnd s X hlen hb hw hk
  refine ⟨o, k, ho, hk0, hmax, ?_, hpc, ?_⟩
  · rw [hV]; simp [setReg]
  · intro r hr
    rw [hV]; simp [setReg, hr]

/-- Witness of C4: `F30A` with keys 2 and 9 pressed. -/
theorem FX0A_takes_highest_key_witness :
    keyState.ramMemory.length ≤ 65535 ∧ keyState.beeper = true ∧
    holdsWord keyState.ramMemory keyState.programCounter (0xF00A + 256 * (3 : Fin 16).val) ∧
    (∃ k, keyState.key k ≠ 0) ∧
    ∃ o k, Cycle 0 keyState = .ok o ∧
      keyState.key k ≠ 0 ∧ (∀ j, keyState.key j ≠ 0 → j ≤ k) ∧
      o.cpu.variableRegister 3 = k.val ∧
      o.cpu.programCounter = keyState.programCounter + 2 ∧
      ∀ r, r ≠ 3 → o.cpu.variableRegister r = keyState.variableRegister r :=
  ⟨by decide!, rfl, by decide!, ⟨9, by decide⟩,
    FX0A_takes_highest_key 0 keyState 3 (by decide!) rfl (by decide!) ⟨9, by decide⟩⟩

/-- C5 (counterexample): the word 0x0000 matches no pattern of the operation
table, yet on a freshly initialised machine (zero bytes at 0x200) `Cycle`
executes it as `00E0`: the program counter moves from 0x200 to 0x202. -/
theorem zero_word_is_executed :
    ¬matchesTable 0x0000 ∧
    holdsWord (loaded []).ramMemory (loaded []).programCounter 0x0000 ∧
    (loaded []).programCounter = 0x200 ∧
    (afterCycles 1 (loaded [])).map (fun c => c.programCounter) = some 0x202 := by
  decide!

/-- C5 (amended): a 16-bit word that matches no pattern of the operation table
and is not decoded loosely (not 0NN0, 0NNE, 5XYN or 9XYN) is an unknown opcode:
`Cycle` completes, prints the diagnostic, and leaves the program counter,
registers, index register, memory, display, stack and redraw flag unchanged;
only the timer tick happens. -/
theorem unknown_opcode_only_ticks (rnd : Nat) (s : CPU) (w : Nat) (hlt : w < 65536)
    (hlen : s.ramMemory.length ≤ 65535) (hb : s.beeper = true)
    (hw : holdsWord s.ramMemory s.programCounter w)
    (hno : ¬matchesTable w) (hloose : ¬decodedLoosely w) :
    ∃ o, Cycle rnd s = .ok o ∧ o.invalid = true ∧
      o.cpu.programCounter = s.programCounter ∧
      o.cpu.variableRegister = s.variableRegister ∧
      o.cpu.indexRegister = s.indexRegister ∧
      o.cpu.ramMemory = s.ramMemory ∧
      o.cpu.display = s.display ∧
      o.cpu.stack = s.stack ∧
      o.cpu.stackPointer = s.stackPointer ∧
      o.cpu.shouldDraw = s.shouldDraw ∧
      o.cpu.delayTimer = s.delayTimer - 1 ∧
      o.cpu.soundTimer = s.soundTimer - 1 := by
  have hf := fetch_eq s w hlen hlt hw
  have he : execute rnd { s with opCode := w } = invalidOp { s with opCode := w } := by
    apply execute_default
    dsimp only
    unfold matchesTable at hno
    unfold decodedLoosely at hloose
    simp only [not_or] at hno hloose
    obtain ⟨-, -, n1, n2, n3, n4, -, n6, n7, n8, -, nA, nB, nC, nD, nE, nF⟩ := hno
    obtain ⟨l0, l5, l9⟩ := hloose
    have hfam : w / 4096 % 16 = 0 ∨ w / 4096 % 16 = 8 ∨ w / 4096 % 16 = 0xE ∨
        w / 4096 % 16 = 0xF := by
      clear l0 n8 nE nF
      omega
    rcases hfam with h | h | h | h
    · left; clear n8 nE nF; omega
    · right; left; clear l0 nE nF; omega
    · right; right; left; clear l0 n8 nF; omega
    · right; right; right; clear l0 n8 nE; omega
  exact ⟨_, Cycle_invalid rnd s w hf he hb, rfl, rfl, rfl, rfl, rfl, rfl, rfl, rfl, rfl, rfl, rfl⟩

/-- Witness of C5: the word 0x0001 at 0x200. -/
theorem unknown_opcode_only_ticks_witness :
    0x0001 < 65536 ∧ unknownState.ramMemory.length ≤ 65535 ∧ unknownState.beeper = true ∧
    holdsWord unknownState.ramMemory unknownState.programCounter 0x0001 ∧
    ¬matchesTable 0x0001 ∧ ¬decodedLoosely 0x0001 ∧
    ∃ o, Cycle 0 unknownState = .ok o ∧ o.invalid = true ∧
      o.cpu.programCounter = unknownState.programCounter ∧
      o.cpu.variableRegister = unknownState.variableRegister ∧
      o.cpu.indexRegister = unknownState.indexRegister ∧
      o.cpu.ramMemory = unknownState.ramMemory ∧
      o.cpu.display = unknownState.display ∧
      o.cpu.stack = unknownState.stack ∧
      o.cpu.stackPointer = unknownState.stackPointer ∧
      o.cpu.shouldDraw = unknownState.shouldDraw ∧
      o.cpu.delayTimer = unknownState.delayTimer - 1 ∧
      o.cpu.soundTimer = unknownState.soundTimer - 1 :=
  ⟨by decide, by decide!, rfl, by decide!, by decide, by decide,
    unknown_opcode_only_ticks 0 unknownState 0x0001 (by decide) (by decide!) rfl (by decide!)
      (by decide) (by decide)⟩

/-- C6 (counterexample): `8004` with V0 = 1 has X = Y = 0, both different from
0xF, and after the `Cycle` VY holds 2, not its old value 1. -/
theorem add_same_register_changes_VY :
    (afterCycles 1 addSelfState).map (fun c => c.variableRegister 0) = some 2 ∧
    holdsWord addSelfState.ramMemory addSelfState.programCounter
      (0x8004 + 256 * (0 : Fin 16).val + 16 * (0 : Fin 16).val) ∧
    addSelfState.variableRegister 0 = 1 := by
  decide!

/-- C6 (amended): for X and Y different from 0xF and byte values of VX, `8XY4`
leaves VF = 1 if old VX + old VY > 255 and 0 otherwise, VX = (old VX + old VY)
mod 256, VY unchanged when Y differs from X, and PC advanced by 2. -/
theorem add_sets_carry (rnd : Nat) (s : CPU) (X Y : Fin 16)
    (hX : X ≠ 0xF) (hY : Y ≠ 0xF)
    (hlen : s.ramMemory.length ≤ 65535) (hb : s.beeper = true)
    (hw : holdsWord s.ramMemory s.programCounter (0x8004 + 256 * X.val + 16 * Y.val))
    (hx : s.variableRegister X < 256) :
    ∃ o, Cycle rnd s = .ok o ∧
      o.cpu.variableRegister 0xF
        = (if s.variableRegister X + s.variableRegister Y > 255 then 1 else 0) ∧
      o.cpu.variableRegister X = (s.variableRegister X + s.variableRegister Y) % 256 ∧
      (Y ≠ X → o.cpu.variableRegister Y = s.variableRegister Y) ∧
      o.cpu.programCounter = s.programCounter + 2 := by
  obtain ⟨o, ho, hV, hpc⟩ := Cycle_8XY4 rnd s X Y hlen hb hw
  have hXF : (0xF : Fin 16) ≠ X := fun h => hX h.symm
  refine ⟨o, ho, ?_, ?_, ?_, hpc⟩
  · rw [hV]
    simp only [setReg, hXF, if_false, if_true]
    by_cases hc : s.variableRegister Y > 0xFF - s.variableRegister X
    · rw [if_pos hc, if_pos (by omega)]
    · rw [if_neg hc, if_neg (by omega)]
  · rw [hV]
    simp only [setReg, hX, hY, if_false, if_true]
  · intro hYX
    rw [hV]
    simp only [setReg, hY, hYX, if_false]

/-- Witness of C6: `8124` with V1 = 0xFF and V2 = 0x01. -/
theorem add_sets_carry_witness :
    (1 : Fin 16) ≠ 0xF ∧ (2 : Fin 16) ≠ 0xF ∧
    addState.ramMemory.length ≤ 65535 ∧ addState.beeper = true ∧
    holdsWord addState.ramMemory addState.programCounter
      (0x8004 + 256 * (1 : Fin 16).val + 16 * (2 : Fin 16).val) ∧
    addState.variableRegister 1 < 256 ∧
    ∃ o, Cycle 0 addState = .ok o ∧
      o.cpu.variableRegister 0xF
        = (if addState.variableRegister 1 + addState.variableRegister 2 > 255 then 1 else 0) ∧
      o.cpu.variableRegister 1
        = (addState.variableRegister 1 + addState.variableRegister 2) % 256 ∧
      ((2 : Fin 16) ≠ 1 → o.cpu.variableRegister 2 = addState.variableRegister 2) ∧
      o.cpu.programCounter = addState.programCounter + 2 :=
  ⟨by decide, by decide, by decide!, rfl, by decide!, by decide,
    add_sets_carry 0 addState 1 2 (by decide) (by decide) (by decide!) rfl (by decide!)
      (by decide)⟩

/-- C7: for X and Y different from 0xF and byte values of VX and VY, `8XY5`
leaves VF = 0 if old VY > old VX and 1 otherwise, VX = (old VX - old VY) mod 256
(on the integers), and PC advanced by 2. -/
theorem sub_sets_no_borrow (rnd : Nat) (s : CPU) (X Y : Fin 16)
    (hX : X ≠ 0xF) (hY : Y ≠ 0xF)
    (hlen : s.ramMemory.length ≤ 65535) (hb : s.beeper = true)
    (hw : holdsWord s.ramMemory s.programCounter (0x8005 + 256 * X.val + 16 * Y.val))
    (hx : s.variableRegister X < 256) (hy : s.variableRegister Y < 256) :
    ∃ o, Cycle rnd s = .ok o ∧
      o.cpu.variableRegister 0xF
        = (if s.variableRegister Y > s.variableRegister X then 0 else 1) ∧
      (o.cpu.variableRegister X : Int)
        = ((s.variableRegister X : Int) - (s.variableRegister Y : Int)) % 256 ∧
      o.cpu.programCounter = s.programCounter + 2 := by
  obtain ⟨o, ho, hV, hpc⟩ := Cycle_8XY5 rnd s X Y hlen hb hw
  have hXF : (0xF : Fin 16) ≠ X := fun h => hX h.symm
  refine ⟨o, ho, ?_, ?_, hpc⟩
  · rw [hV]
    simp only [setReg, hXF, if_false, if_true]
  · rw [hV]
    simp only [setReg, hX, hY, if_false, if_true]
    omega

/-- Witness of C7: `8125` with V1 = 0x01 and V2 = 0x02. -/
theorem sub_sets_no_borrow_witness :
    (1 : Fin 16) ≠ 0xF ∧ (2 : Fin 16) ≠ 0xF ∧
    subState.ramMemory.length ≤ 65535 ∧ subState.beeper = true ∧
    holdsWord subState.ramMemory subState.programCounter
      (0x8005 + 256 * (1 : Fin 16).val + 16 * (2 : Fin 16).val) ∧
    subState.variableRegister 1 < 256 ∧ subState.variableRegister 2 < 256 ∧
    ∃ o, Cycle 0 subState = .ok o ∧
      o.cpu.variableRegister 0xF
        = (if subState.variableRegister 2 > subState.variableRegister 1 then 0 else 1) ∧
      (o.cpu.variableRegister 1 : Int)
        = ((subState.variableRegister 1 : Int) - (subState.variableRegister 2 : Int)) % 256 ∧
      o.cpu.programCounter = subState.programCounter + 2 :=
  ⟨by decide, by decide, by decide!, rfl, by decide!, by decide, by decide,
    sub_sets_no_borrow 0 subState 1 2 (by decide) (by decide) (by decide!) rfl (by decide!)
      (by decide) (by decide)⟩

/-- C8: with the same `DXYN` at PC and PC + 2, X and Y different from 0xF,
VX + 8 ≤ 64, VY + N ≤ 32 and the N sprite bytes inside memory, two consecutive
cycles complete and leave every display cell as it was before the first draw;
if the sprite has a set bit and its target cells were 0 before the first draw,
VF = 1 after the second. -/
theorem draw_twice_restores (r1 r2 : Nat) (s : CPU) (X Y : Fin 16) (N : Nat) (hN : N < 16)
    (hX : X ≠ 0xF) (hY : Y ≠ 0xF)
    (hlen : s.ramMemory.length ≤ 65535) (hb : s.beeper = true)
    (hw : holdsWord s.ramMemory s.programCounter (0xD000 + 256 * X.val + 16 * Y.val + N))
    (hw' : holdsWord s.ramMemory (s.programCounter + 2)
      (0xD000 + 256 * X.val + 16 * Y.val + N))
    (hx : s.variableRegister X + 8 ≤ 64) (hy : s.variableRegister Y + N ≤ 32)
    (hI : s.indexRegister + N ≤ s.ramMemory.length) :
    ∃ o1 o2, Cycle r1 s = .ok o1 ∧ Cycle r2 o1.cpu = .ok o2 ∧
      (∀ r c, o2.cpu.display r c = s.display r c) ∧
      ((∃ j i, j < N ∧ i < 8 ∧ spriteBit s.ramMemory s.indexRegister j i) →
        (∀ (r : Fin 32) (c : Fin 64) (j i : Nat), j < N → i < 8 →
          r.val = s.variableRegister Y + j → c.val = s.variableRegister X + i →
          spriteBit s.ramMemory s.indexRegister j i → s.display r c = 0) →
        o2.cpu.variableRegister 0xF = 1) := by
  obtain ⟨vf1, h1, -, -⟩ := Cycle_DXYN r1 s X Y N hN hlen hb hw hx hy hI
  have hVX : setReg s.variableRegister 0xF vf1 X = s.variableRegister X := by
    simp [setReg, hX]
  have hVY : setReg s.variableRegister 0xF vf1 Y = s.variableRegister Y := by
    simp [setReg, hY]
  obtain ⟨vf2, h2, hone2, -⟩ := Cycle_DXYN r2
    { s with
      opCode := 0xD000 + 256 * X.val + 16 * Y.val + N
      display := fun r c =>
        if hits s.ramMemory s.indexRegister (s.variableRegister X) (s.variableRegister Y) N r c
        then s.display r c ^^^ 1 else s.display r c
      variableRegister := setReg s.variableRegister 0xF vf1
      shouldDraw := true
      programCounter := s.programCounter + 2
      delayTimer := s.delayTimer - 1
      soundTimer := s.soundTimer - 1 }
    X Y N hN hlen hb hw' (by rw [← hVX] at hx; exact hx) (by rw [← hVY] at hy; exact hy) hI
  simp only [hVX, hVY] at h2 hone2
  refine ⟨_, _, h1, h2, ?_, ?_⟩
  · intro r c
    show (if hits s.ramMemory s.indexRegister (s.variableRegister X) (s.variableRegister Y)
        N r c then _ else _) = _
    by_cases hh : hits s.ramMemory s.indexRegister (s.variableRegister X)
        (s.variableRegister Y) N r c
    · simp only [if_pos hh]
      rw [Nat.xor_assoc, Nat.xor_self, Nat.xor_zero]
    · simp only [if_neg hh]
  · rintro ⟨j, i, hj, hi, hbit⟩ hzero
    show setReg (setReg s.variableRegister 0xF vf1) 0xF vf2 0xF = 1
    have hr : s.variableRegister Y + j < 32 := by omega
    have hc : s.variableRegister X + i < 64 := by omega
    have hh : hits s.ramMemory s.indexRegister (s.variableRegister X) (s.variableRegister Y)
        N ⟨s.variableRegister Y + j, hr⟩ ⟨s.variableRegister X + i, hc⟩ :=
      (hits_iff _ _ _ _ _ _ _).2 ⟨j, i, hj, hi, rfl, rfl, hbit⟩
    have hv : vf2 = 1 := by
      apply hone2
      refine ⟨⟨s.variableRegister Y + j, hr⟩, ⟨s.variableRegister X + i, hc⟩, hh, ?_⟩
      rw [if_pos hh, hzero _ _ j i hj hi rfl rfl hbit]
      rfl
    simp [setReg, hv]

/-- Witness of C8: the glyph "0" drawn twice at column 3, row 4 of an empty
display. -/
theorem draw_twice_restores_witness :
    5 < 16 ∧ (1 : Fin 16) ≠ 0xF ∧ (2 : Fin 16) ≠ 0xF ∧
    drawState.ramMemory.length ≤ 65535 ∧ drawState.beeper = true ∧
    holdsWord drawState.ramMemory drawState.programCounter
      (0xD000 + 256 * (1 : Fin 16).val + 16 * (2 : Fin 16).val + 5) ∧
    holdsWord drawState.ramMemory (drawState.programCounter + 2)
      (0xD000 + 256 * (1 : Fin 16).val + 16 * (2 : Fin 16).val + 5) ∧
    drawState.variableRegister 1 + 8 ≤ 64 ∧ drawState.variableRegister 2 + 5 ≤ 32 ∧
    drawState.indexRegister + 5 ≤ drawState.ramMemory.length ∧
    ∃ o1 o2, Cycle 0 drawState = .ok o1 ∧ Cycle 0 o1.cpu = .ok o2 ∧
      (∀ r c, o2.cpu.display r c = drawState.display r c) ∧
      ((∃ j i, j < 5 ∧ i < 8 ∧ spriteBit drawState.ramMemory drawState.indexRegister j i) →
        (∀ (r : Fin 32) (c : Fin 64) (j i : Nat), j < 5 → i < 8 →
          r.val = drawState.variableRegister 2 + j →
          c.val = drawState.variableRegister 1 + i →
          spriteBit drawState.ramMemory drawState.indexRegister j i →
          drawState.display r c = 0) →
        o2.cpu.variableRegister 0xF = 1) :=
  ⟨by decide, by decide, by decide, by decide!, rfl, by decide!, by decide!, by decide,
    by decide, by decide!,
    draw_twice_restores 0 0 drawState 1 2 5 (by decide) (by decide) (by decide) (by decide!)
      rfl (by decide!) (by decide!) (by decide) (by decide) (by decide!)⟩

/-- C9: with room on the stack, `2NNN` at PC = p stores p in `stack[sp]`, sets
the stack pointer to sp + 1 and PC to NNN; the `00EE` found there then leaves
PC = p + 2 and the stack pointer back at sp. -/
theorem call_then_return (r1 r2 : Nat) (s : CPU) (NNN : Nat) (hN : NNN < 4096)
    (hlen : s.ramMemory.length ≤ 65535) (hb : s.beeper = true)
    (hst : s.stack.length ≤ 65535) (hsp : s.stackPointer < s.stack.length)
    (hw : holdsWord s.ramMemory s.programCounter (0x2000 + NNN))
    (hw' : holdsWord s.ramMemory NNN 0x00EE) :
    ∃ o1 o2, Cycle r1 s = .ok o1 ∧
      o1.cpu.stack[s.stackPointer]? = some s.programCounter ∧
      o1.cpu.stackPointer = s.stackPointer + 1 ∧
      o1.cpu.programCounter = NNN ∧
      Cycle r2 o1.cpu = .ok o2 ∧
      o2.cpu.programCounter = s.programCounter + 2 ∧
      o2.cpu.stackPointer = s.stackPointer := by
  have hbd := holdsWord_bound hw
  have h1 := Cycle_2NNN r1 s NNN hN hlen hb hst hsp hw
  have htop : (s.stack.set s.stackPointer s.programCounter)[s.stackPointer]?
      = some s.programCounter := by
    simp [List.getElem?_set_self, hsp]
  obtain ⟨o2, h2, hpc2, hsp2⟩ := Cycle_00EE r2
    { s with
      opCode := 0x2000 + NNN
      stack := s.stack.set s.stackPointer s.programCounter
      stackPointer := s.stackPointer + 1
      programCounter := NNN
      delayTimer := s.delayTimer - 1
      soundTimer := s.soundTimer - 1 }
    s.stackPointer s.programCounter hlen hb rfl (by omega) htop (by omega) hw'
  exact ⟨_, o2, h1, htop, rfl, rfl, h2, hpc2, hsp2⟩

/-- Witness of C9: `2204` at 0x200 and `00EE` at 0x204. -/
theorem call_then_return_witness :
    0x204 < 4096 ∧ callState.ramMemory.length ≤ 65535 ∧ callState.beeper = true ∧
    callState.stack.length ≤ 65535 ∧ callState.stackPointer < callState.stack.length ∧
    holdsWord callState.ramMemory callState.programCounter (0x2000 + 0x204) ∧
    holdsWord callState.ramMemory 0x204 0x00EE ∧
    ∃ o1 o2, Cycle 0 callState = .ok o1 ∧
      o1.cpu.stack[callState.stackPointer]? = some callState.programCounter ∧
      o1.cpu.stackPointer = callState.stackPointer + 1 ∧
      o1.cpu.programCounter = 0x204 ∧
      Cycle 0 o1.cpu = .ok o2 ∧
      o2.cpu.programCounter = callState.programCounter + 2 ∧
      o2.cpu.stackPointer = callState.stackPointer :=
  ⟨by decide, by decide!, rfl, by decide, by decide, by decide!, by decide!,
    call_then_return 0 0 callState 0x204 (by decide) (by decide!) rfl (by decide) (by decide)
      (by decide!) (by decide!)⟩

/-- C10: after `n ≥ 1` consecutive cycles each executing `00E0`, every display
cell is 0, the next `Draw()` returns true and a second `Draw()` with no `Cycle`
in between returns false. -/
theorem clear_then_poll_once (n : Nat) (rnd : Nat → Nat) (s : CPU) (hn : 1 ≤ n)
    (hlen : s.ramMemory.length ≤ 65535) (hb : s.beeper = true)
    (hw : ∀ k, k < n → holdsWord s.ramMemory (s.programCounter + 2 * k) 0x00E0) :
    ∃ s' b, cycles rnd n s = .ok (s', b) ∧
      (∀ r c, s'.display r c = 0) ∧
      (Draw s').1 = true ∧
      (Draw (Draw s').2).1 = false := by
  obtain ⟨m, rfl⟩ : ∃ m, n = m + 1 := ⟨n - 1, by omega⟩
  obtain ⟨s', b, hrun, hd, hsd⟩ := cycles_00E0 m rnd s hlen hb hw
  exact ⟨s', b, hrun, hd, hsd, rfl⟩

/-- Witness of C10: three `00E0` in a row on a display with a lit cell. -/
theorem clear_then_poll_once_witness :
    1 ≤ 3 ∧ clearState.ramMemory.length ≤ 65535 ∧ clearState.beeper = true ∧
    (∀ k, k < 3 → holdsWord clearState.ramMemory (clearState.programCounter + 2 * k) 0x00E0) ∧
    ∃ s' b, cycles (fun _ => 0) 3 clearState = .ok (s', b) ∧
      (∀ r c, s'.display r c = 0) ∧
      (Draw s').1 = true ∧
      (Draw (Draw s').2).1 = false :=
  ⟨by decide, by decide!, rfl, by decide!,
    clear_then_poll_once 3 (fun _ => 0) clearState (by decide) (by decide!) rfl (by decide!)⟩

/-- C11: for every `CPUOptions` with `MAX_RAM_MEMORY_SIZE ≥ 80`, `InitCPU` on a
zero-valued CPU returns a state with PC = 0x200, stack pointer 0, all V
registers 0, both timers 0, every display cell 0, a memory of
`MAX_RAM_MEMORY_SIZE` bytes that starts with the 80 bytes of the font table and
is 0 from there on, and a stack of `MAX_STACK_SIZE` entries. -/
theorem InitCPU_state (options : CPUOptions) (h : 80 ≤ options.MAX_RAM_MEMORY_SIZE) :
    ∃ s, InitCPU zeroCPU options = .ok s ∧
      s.programCounter = 0x200 ∧ s.stackPointer = 0 ∧
      (∀ k, s.variableRegister k = 0) ∧
      s.delayTimer = 0 ∧ s.soundTimer = 0 ∧
      (∀ r c, s.display r c = 0) ∧
      s.ramMemory.length = options.MAX_RAM_MEMORY_SIZE ∧
      (∀ i, i < 80 → s.ramMemory[i]? = fontSet[i]?) ∧
      fontSet.length = 80 ∧
      (∀ i, 80 ≤ i → i < options.MAX_RAM_MEMORY_SIZE → s.ramMemory[i]? = some 0) ∧
      s.stack.length = options.MAX_STACK_SIZE := by
  have hf : fontSet.length = 80 := by decide
  have hl : fontSet.length ≤ (List.replicate options.MAX_RAM_MEMORY_SIZE (0 : Nat)).length := by
    rw [List.length_replicate, hf]; exact h
  have hinit : InitCPU zeroCPU options = .ok
      { zeroCPU with
        ramMemory := fontSet ++ (List.replicate options.MAX_RAM_MEMORY_SIZE 0).drop fontSet.length
        stack := List.replicate options.MAX_STACK_SIZE 0
        shouldDraw := true
        programCounter := 0x200
        beeper := true } := by
    simp only [InitCPU, hl, if_true]
  refine ⟨_, hinit, rfl, rfl, fun _ => rfl, rfl, rfl, fun _ _ => rfl, ?_, ?_, hf, ?_, ?_⟩
  · show (fontSet ++ (List.replicate options.MAX_RAM_MEMORY_SIZE 0).drop fontSet.length).length
      = _
    rw [List.length_append, List.length_drop, List.length_replicate, hf]
    omega
  · intro i hi
    show (fontSet ++ (List.replicate options.MAX_RAM_MEMORY_SIZE 0).drop fontSet.length)[i]?
      = _
    rw [List.getElem?_append_left (by rw [hf]; exact hi)]
  · intro i hi hlt
    show (fontSet ++ (List.replicate options.MAX_RAM_MEMORY_SIZE 0).drop fontSet.length)[i]?
      = _
    rw [List.getElem?_append_right (by rw [hf]; exact hi), List.getElem?_drop,
      List.getElem?_replicate, hf, if_pos (by omega)]
  · show (List.replicate options.MAX_STACK_SIZE 0).length = _
    rw [List.length_replicate]

/-- Witness of C11: the default options, 4096 bytes of memory and 16 stack
entries. -/
theorem InitCPU_state_witness :
    80 ≤ (4096 : Nat) ∧
    ∃ s, InitCPU zeroCPU { MAX_RAM_MEMORY_SIZE := 4096, MAX_STACK_SIZE := 16 } = .ok s ∧
      s.programCounter = 0x200 ∧ s.stackPointer = 0 ∧
      (∀ k, s.variableRegister k = 0) ∧
      s.delayTimer = 0 ∧ s.soundTimer = 0 ∧
      (∀ r c, s.display r c = 0) ∧
      s.ramMemory.length = 4096 ∧
      (∀ i, i < 80 → s.ramMemory[i]? = fontSet[i]?) ∧
      fontSet.length = 80 ∧
      (∀ i, 80 ≤ i → i < 4096 → s.ramMemory[i]? = some 0) ∧
      s.stack.length = 16 :=
  ⟨by decide, InitCPU_state { MAX_RAM_MEMORY_SIZE := 4096, MAX_STACK_SIZE := 16 } (by decide)⟩

/-- C12: with the file a byte list `b` and `c` the memory capacity,
`LoadProgram` returns the size error exactly when `length b > c - 512` on the
integers, and then leaves the machine as it was; otherwise it returns no error,
memory keeps its length, holds `b[i]` at `512 + i` for every `i < length b`, and
every other byte (the font table included) is unchanged; a file of exactly
`c - 512` bytes loads and one of `c - 511` bytes is rejected.  It never panics. -/
theorem LoadProgram_spec (cpu : CPU) (b : List Nat) :
    ((cpu.ramMemory.length : Int) - 512 < (b.length : Int) →
      LoadProgram cpu b = .ok (cpu, some .tooBig)) ∧
    (¬((cpu.ramMemory.length : Int) - 512 < (b.length : Int)) →
      ∃ m, LoadProgram cpu b = .ok ({ cpu with ramMemory := m }, none) ∧
        m.length = cpu.ramMemory.length ∧
        (∀ i, i < b.length → m[512 + i]? = b[i]?) ∧
        (∀ a, (a < 512 ∨ 512 + b.length ≤ a) → m[a]? = cpu.ramMemory[a]?)) ∧
    (b.length + 512 = cpu.ramMemory.length →
      ∃ m, LoadProgram cpu b = .ok ({ cpu with ramMemory := m }, none)) ∧
    (b.length + 511 = cpu.ramMemory.length →
      LoadProgram cpu b = .ok (cpu, some .tooBig)) := by
  have hbig : (cpu.ramMemory.length : Int) - 512 < (b.length : Int) →
      LoadProgram cpu b = .ok (cpu, some .tooBig) := by
    intro h
    simp only [LoadProgram, h, if_true]
  have hfits : ¬((cpu.ramMemory.length : Int) - 512 < (b.length : Int)) →
      ∃ m, LoadProgram cpu b = .ok ({ cpu with ramMemory := m }, none) ∧
        m.length = cpu.ramMemory.length ∧
        (∀ i, i < b.length → m[512 + i]? = b[i]?) ∧
        (∀ a, (a < 512 ∨ 512 + b.length ≤ a) → m[a]? = cpu.ramMemory[a]?) := by
    intro h
    obtain ⟨m, hrun, hlen, hcopy, hkeep⟩ := copyProgram_eq b cpu.ramMemory 0 (by omega)
    refine ⟨m, ?_, hlen, ?_, ?_⟩
    · simp only [LoadProgram, h, if_false, hrun, bind, Except.bind, pure, Except.pure]
    · intro i hi
      have := hcopy i hi
      simpa using this
    · intro a ha
      exact hkeep a (by omega)
  refine ⟨hbig, hfits, ?_, ?_⟩
  · intro h
    obtain ⟨m, hm, -⟩ := hfits (by omega)
    exact ⟨m, hm⟩
  · intro h
    exact hbig (by omega)

/-- Witness of C12: the two bytes `00E0` loaded into the 4096-byte machine, and
a file of 3585 bytes rejected. -/
theorem LoadProgram_spec_witness :
    (¬(((loaded []).ramMemory.length : Int) - 512 < (([0x00, 0xE0] : List Nat).length : Int)) ∧
      ∃ m, LoadProgram (loaded []) [0x00, 0xE0] = .ok ({ loaded [] with ramMemory := m }, none) ∧
        m.length = (loaded []).ramMemory.length ∧
        (∀ i, i < ([0x00, 0xE0] : List Nat).length →
          m[512 + i]? = ([0x00, 0xE0] : List Nat)[i]?) ∧
        (∀ a, (a < 512 ∨ 512 + ([0x00, 0xE0] : List Nat).length ≤ a) →
          m[a]? = (loaded []).ramMemory[a]?)) ∧
    ((List.replicate 3585 (0 : Nat)).length + 511 = (loaded []).ramMemory.length ∧
      LoadProgram (loaded []) (List.replicate 3585 0) = .ok (loaded [], some .tooBig)) :=
  ⟨⟨by decide!, (LoadProgram_spec (loaded []) [0x00, 0xE0]).2.1 (by decide!)⟩,
    ⟨by decide!, (LoadProgram_spec (loaded []) (List.replicate 3585 0)).2.2.2 (by decide!)⟩⟩

/-- C13: with `I + X` inside memory, `FX55` completes and leaves
`memory[I + k] = Vk` for every `k` in `0..X`, every other memory byte and all V
registers unchanged, the index register equal to `X + 1`, and PC advanced
by 2. -/
theorem FX55_stores_registers (rnd : Nat) (s : CPU) (X : Fin 16)
    (hlen : s.ramMemory.length ≤ 65535) (hb : s.beeper = true)
    (hw : holdsWord s.ramMemory s.programCounter (0xF055 + 256 * X.val))
    (hI : s.indexRegister + X.val < s.ramMemory.length) :
    ∃ o, Cycle rnd s = .ok o ∧
      (∀ k : Fin 16, k ≤ X →
        o.cpu.ramMemory[s.indexRegister + k.val]? = some (s.variableRegister k)) ∧
      (∀ a, (a < s.indexRegister ∨ s.indexRegister + X.val < a) →
        o.cpu.ramMemory[a]? = s.ramMemory[a]?) ∧
      o.cpu.variableRegister = s.variableRegister ∧
      o.cpu.indexRegister = X.val + 1 ∧
      o.cpu.programCounter = s.programCounter + 2 := by
  obtain ⟨m, hrun, -, hcopy, hkeep⟩ := Cycle_FX55 rnd s X hlen hb hw hI
  exact ⟨_, hrun, hcopy, hkeep, rfl, rfl, rfl⟩

/-- Witness of C13: `F255` with V0, V1, V2 = 7, 8, 9 and I = 0x300. -/
theorem FX55_stores_registers_witness :
    storeState.ramMemory.length ≤ 65535 ∧ storeState.beeper = true ∧
    holdsWord storeState.ramMemory storeState.programCounter (0xF055 + 256 * (2 : Fin 16).val) ∧
    storeState.indexRegister + (2 : Fin 16).val < storeState.ramMemory.length ∧
    ∃ o, Cycle 0 storeState = .ok o ∧
      (∀ k : Fin 16, k ≤ 2 →
        o.cpu.ramMemory[storeState.indexRegister + k.val]?
          = some (storeState.variableRegister k)) ∧
      (∀ a, (a < storeState.indexRegister ∨ storeState.indexRegister + (2 : Fin 16).val < a) →
        o.cpu.ramMemory[a]? = storeState.ramMemory[a]?) ∧
      o.cpu.variableRegister = storeState.variableRegister ∧
      o.cpu.indexRegister = (2 : Fin 16).val + 1 ∧
      o.cpu.programCounter = storeState.programCounter + 2 :=
  ⟨by decide!, rfl, by decide!, by decide!,
    FX55_stores_registers 0 storeState 2 (by decide!) rfl (by decide!) (by decide!)⟩

/-- C14: from a state with sound timer `s ≥ 1`, in a run of `k` cycles none of
which faults, executes `FX18` or is an `FX0A` with no key pressed, the first `j`
cycles (for every `j ≤ k`) call the beeper once in total when `j ≥ s` and not at
all when `j < s`: the one call happens during cycle number `s`.  No single
`Cycle` calls it more than once. -/
theorem beeper_called_once (rnd : Nat → Nat) (k : Nat) (s : CPU)
    (hs : 1 ≤ s.soundTimer) (hq : quietRun rnd k s) :
    (∀ j, j ≤ k → ∃ sj bj, cycles rnd j s = .ok (sj, bj) ∧
      bj = (if s.soundTimer ≤ j then 1 else 0)) ∧
    (∀ (r : Nat) (c : CPU) (o : Outcome), Cycle r c = .ok o → o.beeps ≤ 1) := by
  refine ⟨?_, Cycle_beeps_le_one⟩
  intro j hj
  obtain ⟨sj, bj, hrun, -, hb⟩ := quietRun_beeps j rnd s (quietRun_shorter k j rnd s hj hq)
  refine ⟨sj, bj, hrun, ?_⟩
  rw [hb]
  by_cases h : s.soundTimer ≤ j
  · rw [if_pos ⟨hs, h⟩, if_pos h]
  · rw [if_neg (fun h' => h h'.2), if_neg h]

/-- Witness of C14: three `00E0` in a row from sound timer 2. -/
theorem beeper_called_once_witness :
    1 ≤ beepState.soundTimer ∧ quietRun (fun _ => 0) 3 beepState ∧
    (∀ j, j ≤ 3 → ∃ sj bj, cycles (fun _ => 0) j beepState = .ok (sj, bj) ∧
      bj = (if beepState.soundTimer ≤ j then 1 else 0)) ∧
    (∀ (r : Nat) (c : CPU) (o : Outcome), Cycle r c = .ok o → o.beeps ≤ 1) :=
  ⟨by decide, quietRun_00E0 3 (fun _ => 0) beepState (by decide!) rfl (by decide!),
    beeper_called_once (fun _ => 0) 3 beepState (by decide)
      (quietRun_00E0 3 (fun _ => 0) beepState (by decide!) rfl (by decide!))⟩

/-- C15: for `DXYN` with VX + 8 ≤ 64, VY + N ≤ 32 and the N sprite bytes inside
memory, the `Cycle` completes; a cell (r, c) with VY ≤ r < VY + N,
VX ≤ c < VX + 8 and bit 7 - (c - VX) of `memory[I + (r - VY)]` set holds its old
value XOR 1, every other cell is unchanged; memory is unchanged, the redraw
flag is true and PC is advanced by 2. -/
theorem draw_toggles_set_bits (rnd : Nat) (s : CPU) (X Y : Fin 16) (N : Nat) (hN : N < 16)
    (hlen : s.ramMemory.length ≤ 65535) (hb : s.beeper = true)
    (hw : holdsWord s.ramMemory s.programCounter (0xD000 + 256 * X.val + 16 * Y.val + N))
    (hx : s.variableRegister X + 8 ≤ 64) (hy : s.variableRegister Y + N ≤ 32)
    (hI : s.indexRegister + N ≤ s.ramMemory.length) :
    ∃ o, Cycle rnd s = .ok o ∧
      (∀ (r : Fin 32) (c : Fin 64),
        (s.variableRegister Y ≤ r.val ∧ r.val < s.variableRegister Y + N ∧
          s.variableRegister X ≤ c.val ∧ c.val < s.variableRegister X + 8 ∧
          (s.ramMemory.getD (s.indexRegister + (r.val - s.variableRegister Y)) 0).testBit
            (7 - (c.val - s.variableRegister X)) = true →
          o.cpu.display r c = s.display r c ^^^ 1) ∧
        (¬(s.variableRegister Y ≤ r.val ∧ r.val < s.variableRegister Y + N ∧
          s.variableRegister X ≤ c.val ∧ c.val < s.variableRegister X + 8 ∧
          (s.ramMemory.getD (s.indexRegister + (r.val - s.variableRegister Y)) 0).testBit
            (7 - (c.val - s.variableRegister X)) = true) →
          o.cpu.display r c = s.display r c)) ∧
      o.cpu.ramMemory = s.ramMemory ∧
      o.cpu.shouldDraw = true ∧
      o.cpu.programCounter = s.programCounter + 2 := by
  obtain ⟨vf, hrun, -, -⟩ := Cycle_DXYN rnd s X Y N hN hlen hb hw hx hy hI
  refine ⟨_, hrun, ?_, rfl, rfl, rfl⟩
  intro r c
  constructor
  · rintro ⟨h1, h2, h3, h4, h5⟩
    have hh : hits s.ramMemory s.indexRegister (s.variableRegister X) (s.variableRegister Y)
        N r c := ⟨h1, h2, h3, h4, (bit_test _ _ (by omega)).2 h5⟩
    show (if hits s.ramMemory s.indexRegister (s.variableRegister X) (s.variableRegister Y)
        N r c then _ else _) = _
    rw [if_pos hh]
  · intro hn
    have hh : ¬hits s.ramMemory s.indexRegister (s.variableRegister X) (s.variableRegister Y)
        N r c := by
      rintro ⟨h1, h2, h3, h4, h5⟩
      exact hn ⟨h1, h2, h3, h4, (bit_test _ _ (by omega)).1 h5⟩
    show (if hits s.ramMemory s.indexRegister (s.variableRegister X) (s.variableRegister Y)
        N r c then _ else _) = _
    rw [if_neg hh]

/-- Witness of C15: `D125` on the glyph "0" at column 3, row 4. -/
theorem draw_toggles_set_bits_witness :
    5 < 16 ∧ drawState.ramMemory.length ≤ 65535 ∧ drawState.beeper = true ∧
    holdsWord drawState.ramMemory drawState.programCounter
      (0xD000 + 256 * (1 : Fin 16).val + 16 * (2 : Fin 16).val + 5) ∧
    drawState.variableRegister 1 + 8 ≤ 64 ∧ drawState.variableRegister 2 + 5 ≤ 32 ∧
    drawState.indexRegister + 5 ≤ drawState.ramMemory.length ∧
    ∃ o, Cycle 0 drawState = .ok o ∧
      (∀ (r : Fin 32) (c : Fin 64),
        (drawState.variableRegister 2 ≤ r.val ∧ r.val < drawState.variableRegister 2 + 5 ∧
          drawState.variableRegister 1 ≤ c.val ∧ c.val < drawState.variableRegister 1 + 8 ∧
          (drawState.ramMemory.getD
              (drawState.indexRegister + (r.val - drawState.variableRegister 2)) 0).testBit
            (7 - (c.val - drawState.variableRegister 1)) = true →
          o.cpu.display r c = drawState.display r c ^^^ 1) ∧
        (¬(drawState.variableRegister 2 ≤ r.val ∧ r.val < drawState.variableRegister 2 + 5 ∧
          drawState.variableRegister 1 ≤ c.val ∧ c.val < drawState.variableRegister 1 + 8 ∧
          (drawState.ramMemory.getD
              (drawState.indexRegister + (r.val - drawState.variableRegister 2)) 0).testBit
            (7 - (c.val - drawState.variableRegister 1)) = true) →
          o.cpu.display r c = drawState.display r c)) ∧
      o.cpu.ramMemory = drawState.ramMemory ∧
      o.cpu.shouldDraw = true ∧
      o.cpu.programCounter = drawState.programCounter + 2 :=
  ⟨by decide, by decide!, rfl, by decide!, by decide, by decide, by decide!,
    draw_toggles_set_bits 0 drawState 1 2 5 (by decide) (by decide!) rfl (by decide!)
      (by decide) (by decide) (by decide!)⟩

/-- C16: for `DXYN` with VX + 8 ≤ 64, VY + N ≤ 32 and the N sprite bytes inside
memory, VF after the `Cycle` is 1 if and only if some row j < N and column i < 8
has bit i (most significant first) of `memory[I + j]` set and the display cell
(VY + j, VX + i) held 1 before; otherwise VF is 0, whatever it held before. -/
theorem draw_sets_collision_flag (rnd : Nat) (s : CPU) (X Y : Fin 16) (N : Nat) (hN : N < 16)
    (hlen : s.ramMemory.length ≤ 65535) (hb : s.beeper = true)
    (hw : holdsWord s.ramMemory s.programCounter (0xD000 + 256 * X.val + 16 * Y.val + N))
    (hx : s.variableRegister X + 8 ≤ 64) (hy : s.variableRegister Y + N ≤ 32)
    (hI : s.indexRegister + N ≤ s.ramMemory.length) :
    ∃ o, Cycle rnd s = .ok o ∧
      (o.cpu.variableRegister 0xF = 1 ↔
        ∃ (j i : Nat) (r : Fin 32) (c : Fin 64), j < N ∧ i < 8 ∧
          spriteBit s.ramMemory s.indexRegister j i ∧
          r.val = s.variableRegister Y + j ∧ c.val = s.variableRegister X + i ∧
          s.display r c = 1) ∧
      (o.cpu.variableRegister 0xF = 1 ∨ o.cpu.variableRegister 0xF = 0) := by
  obtain ⟨vf, hrun, hone, hzero⟩ := Cycle_DXYN rnd s X Y N hN hlen hb hw hx hy hI
  have hiff : (∃ r c, hits s.ramMemory s.indexRegister (s.variableRegister X)
        (s.variableRegister Y) N r c ∧ s.display r c = 1) ↔
      ∃ (j i : Nat) (r : Fin 32) (c : Fin 64), j < N ∧ i < 8 ∧
        spriteBit s.ramMemory s.indexRegister j i ∧
        r.val = s.variableRegister Y + j ∧ c.val = s.variableRegister X + i ∧
        s.display r c = 1 := by
    constructor
    · rintro ⟨r, c, hh, hd⟩
      obtain ⟨j, i, hj, hi, hr, hc, hbit⟩ := (hits_iff _ _ _ _ _ _ _).1 hh
      exact ⟨j, i, r, c, hj, hi, hbit, hr, hc, hd⟩
    · rintro ⟨j, i, r, c, hj, hi, hbit, hr, hc, hd⟩
      exact ⟨r, c, (hits_iff _ _ _ _ _ _ _).2 ⟨j, i, hj, hi, hr, hc, hbit⟩, hd⟩
  have hVF : setReg s.variableRegister 0xF vf 0xF = vf := by simp [setReg]
  refine ⟨_, hrun, ?_, ?_⟩
  · show setReg s.variableRegister 0xF vf 0xF = 1 ↔ _
    rw [hVF, ← hiff]
    constructor
    · intro h1
      by_contra hno
      have := hzero hno
      omega
    · exact hone
  · show setReg s.variableRegister 0xF vf 0xF = 1 ∨ setReg s.variableRegister 0xF vf 0xF = 0
    rw [hVF]
    by_cases hex : ∃ r c, hits s.ramMemory s.indexRegister (s.variableRegister X)
        (s.variableRegister Y) N r c ∧ s.display r c = 1
    · exact Or.inl (hone hex)
    · exact Or.inr (hzero hex)

/-- Witness of C16: `D125` on the glyph "0" over a display on which it is
already drawn, with VF = 7 before. -/
theorem draw_sets_collision_flag_witness :
    5 < 16 ∧ redrawState.ramMemory.length ≤ 65535 ∧ redrawState.beeper = true ∧
    holdsWord redrawState.ramMemory redrawState.programCounter
      (0xD000 + 256 * (1 : Fin 16).val + 16 * (2 : Fin 16).val + 5) ∧
    redrawState.variableRegister 1 + 8 ≤ 64 ∧ redrawState.variableRegister 2 + 5 ≤ 32 ∧
    redrawState.indexRegister + 5 ≤ redrawState.ramMemory.length ∧
    ∃ o, Cycle 0 redrawState = .ok o ∧
      (o.cpu.variableRegister 0xF = 1 ↔
        ∃ (j i : Nat) (r : Fin 32) (c : Fin 64), j < 5 ∧ i < 8 ∧
          spriteBit redrawState.ramMemory redrawState.indexRegister j i ∧
          r.val = redrawState.variableRegister 2 + j ∧
          c.val = redrawState.variableRegister 1 + i ∧
          redrawState.display r c = 1) ∧
      (o.cpu.variableRegister 0xF = 1 ∨ o.cpu.variableRegister 0xF = 0) :=
  ⟨by decide, by decide!, rfl, by decide!, by decide, by decide, by decide!,
    draw_sets_collision_flag 0 redrawState 1 2 5 (by decide) (by decide!) rfl (by decide!)
      (by decide) (by decide) (by decide!)⟩

/-- C17 (counterexample): `D012` with V0 = 0, V1 = 255 and I = 0x1FF: the sprite
rows are 0x00 and 0xD0, so row 1, column 0 is a set bit whose target row
VY + 1 = 256 is not below 32; yet the `Cycle` completes and the cell (0, 0),
which was 0, holds 1: the `uint8` sum wrapped to row 0. -/
theorem draw_wraps_at_256 :
    holdsWord wrapState.ramMemory wrapState.programCounter 0xD012 ∧
    spriteBit wrapState.ramMemory wrapState.indexRegister 1 0 ∧
    32 ≤ wrapState.variableRegister 1 + 1 ∧
    wrapState.display 0 0 = 0 ∧
    (afterCycles 1 wrapState).map (fun c => c.display 0 0) = some 1 := by
  decide!

/-- C17 (amended): for every `DXYN` with a set sprite bit (row j < N, column
i < 8, its byte inside memory) whose target row (VY + j) mod 256 is at least 32
or whose target column (VX + i) mod 256 is at least 64, the sums being `uint8`
sums, `Cycle` fails on an out-of-range display access. -/
theorem draw_out_of_range_faults (rnd : Nat) (s : CPU) (X Y : Fin 16) (N : Nat) (hN : N < 16)
    (hlen : s.ramMemory.length ≤ 65535)
    (hw : holdsWord s.ramMemory s.programCounter (0xD000 + 256 * X.val + 16 * Y.val + N))
    (j i : Nat) (hj : j < N) (hi : i < 8)
    (hmem : s.indexRegister + j < s.ramMemory.length)
    (hbit : spriteBit s.ramMemory s.indexRegister j i)
    (hout : 32 ≤ (s.variableRegister Y + j) % 256 ∨ 64 ≤ (s.variableRegister X + i) % 256) :
    Cycle rnd s = .error .display := by
  have hX := X.isLt
  have hY := Y.isLt
  have hf := fetch_eq s _ hlen (by omega) hw
  have hfam : (0xD000 + 256 * X.val + 16 * Y.val + N) &&& 0xF000 = 0xD000 := by
    rw [and_F000]; omega
  have hlow : (0xD000 + 256 * X.val + 16 * Y.val + N) &&& 0x000F = N := by
    rw [and_000F]; omega
  have hx' : opX (0xD000 + 256 * X.val + 16 * Y.val + N) = X :=
    Fin.ext (by rw [opX_val]; omega)
  have hy' : opY (0xD000 + 256 * X.val + 16 * Y.val + N) = Y :=
    Fin.ext (by rw [opY_val]; omega)
  have hdraw := drawSprite_bad s.ramMemory s.indexRegister (s.variableRegister X)
    (s.variableRegister Y) N j i (s.display, 0) hlen hj (by omega) hi hmem hbit hout
  have he : execute rnd { s with opCode := 0xD000 + 256 * X.val + 16 * Y.val + N } =
      .error .display := by
    simp [execute, execD, hfam, hlow, hx', hy', hdraw, bind, Except.bind]
  rw [Cycle_eq rnd s _ hf, he]

/-- Witness of C17: `D125` on the glyph "0" at column 61: bit 3 of row 0 would
go to column 64. -/
theorem draw_out_of_range_faults_witness :
    5 < 16 ∧ edgeState.ramMemory.length ≤ 65535 ∧
    holdsWord edgeState.ramMemory edgeState.programCounter
      (0xD000 + 256 * (1 : Fin 16).val + 16 * (2 : Fin 16).val + 5) ∧
    0 < 5 ∧ 3 < 8 ∧ edgeState.indexRegister + 0 < edgeState.ramMemory.length ∧
    spriteBit edgeState.ramMemory edgeState.indexRegister 0 3 ∧
    (32 ≤ (edgeState.variableRegister 2 + 0) % 256 ∨
      64 ≤ (edgeState.variableRegister 1 + 3) % 256) ∧
    Cycle 0 edgeState = .error .display :=
  ⟨by decide, by decide!, by decide!, by decide, by decide, by decide!, by decide!,
    by decide,
    draw_out_of_range_faults 0 edgeState 1 2 5 (by decide) (by decide!) (by decide!) 0 3
      (by decide) (by decide) (by decide!) (by decide!) (by decide)⟩

/-- C18 (counterexample): `81F4` with V1 = 1 and VF = 5: X = 1 differs from 0xF,
Y = 0xF, and after the `Cycle` V1 is 1, not (1 + 5) mod 256 = 6. -/
theorem add_flag_register_ignores_old_flag :
    holdsWord flagState.ramMemory flagState.programCounter 0x81F4 ∧
    flagState.variableRegister 1 = 1 ∧ flagState.variableRegister 0xF = 5 ∧
    (afterCycles 1 flagState).map (fun c => c.variableRegister 1) = some 1 ∧
    (1 + 5) % 256 = 6 := by
  decide!

/-- C18 (amended): for X different from 0xF and Y = 0xF, the arithmetic
instructions first write their flag to VF and then take VF as the second
operand: `8XF4` leaves VX = (old VX + c) mod 256 with c the carry of
old VX + old VF, `8XF5` leaves VX = (old VX - b) mod 256 with b = 0 if
old VF > old VX and 1 otherwise, `8XF7` leaves VX = (b - old VX) mod 256 with b = 0
if old VX > old VF and 1 otherwise; in each case the flag is what VF holds
afterwards. -/
theorem flag_operand_is_new_flag (rnd : Nat) (s : CPU) (X : Fin 16) (k : Nat)
    (hk : k = 4 ∨ k = 5 ∨ k = 7) (hX : X ≠ 0xF)
    (hlen : s.ramMemory.length ≤ 65535) (hb : s.beeper = true)
    (hw : holdsWord s.ramMemory s.programCounter
      (0x8000 + 256 * X.val + 16 * (0xF : Fin 16).val + k))
    (hx : s.variableRegister X < 256) :
    ∃ o, Cycle rnd s = .ok o ∧
      (k = 4 →
        o.cpu.variableRegister 0xF
          = (if s.variableRegister X + s.variableRegister 0xF > 255 then 1 else 0) ∧
        o.cpu.variableRegister X
          = (s.variableRegister X + o.cpu.variableRegister 0xF) % 256) ∧
      (k = 5 →
        o.cpu.variableRegister 0xF
          = (if s.variableRegister 0xF > s.variableRegister X then 0 else 1) ∧
        (o.cpu.variableRegister X : Int)
          = ((s.variableRegister X : Int) - (o.cpu.variableRegister 0xF : Int)) % 256) ∧
      (k = 7 →
        o.cpu.variableRegister 0xF
          = (if s.variableRegister X > s.variableRegister 0xF then 0 else 1) ∧
        (o.cpu.variableRegister X : Int)
          = ((o.cpu.variableRegister 0xF : Int) - (s.variableRegister X : Int)) % 256) := by
  have hXF : (0xF : Fin 16) ≠ X := fun h => hX h.symm
  rcases hk with rfl | rfl | rfl
  · refine ⟨_, Cycle_8XYk rnd s X 0xF 4 (by decide) hlen hb hw _
      (exec8_45 s X 0xF 4 (Or.inl rfl)), ?_, fun h => absurd h (by decide),
      fun h => absurd h (by decide)⟩
    intro _
    simp only [setReg, hXF, hX, if_false, if_true]
    constructor
    · by_cases hc : s.variableRegister 0xF > 0xFF - s.variableRegister X
      · rw [if_pos hc, if_pos (by omega)]
      · rw [if_neg hc, if_neg (by omega)]
    · trivial
  · refine ⟨_, Cycle_8XYk rnd s X 0xF 5 (by decide) hlen hb hw _
      (exec8_45 s X 0xF 5 (Or.inr rfl)), fun h => absurd h (by decide), ?_,
      fun h => absurd h (by decide)⟩
    intro _
    simp only [setReg, hXF, hX, if_false, if_true, show ¬((5 : Nat) = 4) by decide]
    refine ⟨trivial, ?_⟩
    by_cases hc : s.variableRegister 0xF > s.variableRegister X
    · simp only [if_pos hc]
      omega
    · simp only [if_neg hc]
      omega
  · refine ⟨_, Cycle_8XYk rnd s X 0xF 7 (by decide) hlen hb hw _
      (exec8_67E s X 0xF 7 (Or.inr (Or.inl rfl))), fun h => absurd h (by decide),
      fun h => absurd h (by decide), ?_⟩
    intro _
    simp only [setReg, hXF, hX, if_false, if_true, show ¬((7 : Nat) = 6) by decide]
    refine ⟨trivial, ?_⟩
    by_cases hc : s.variableRegister X > s.variableRegister 0xF
    · simp only [if_pos hc]
      omega
    · simp only [if_neg hc]
      omega

/-- Witness of C18: `81F4` with V1 = 1 and VF = 5. -/
theorem flag_operand_is_new_flag_witness :
    ((4 : Nat) = 4 ∨ (4 : Nat) = 5 ∨ (4 : Nat) = 7) ∧ (1 : Fin 16) ≠ 0xF ∧
    flagState.ramMemory.length ≤ 65535 ∧ flagState.beeper = true ∧
    holdsWord flagState.ramMemory flagState.programCounter
      (0x8000 + 256 * (1 : Fin 16).val + 16 * (0xF : Fin 16).val + 4) ∧
    flagState.variableRegister 1 < 256 ∧
    ∃ o, Cycle 0 flagState = .ok o ∧
      ((4 : Nat) = 4 →
        o.cpu.variableRegister 0xF
          = (if flagState.variableRegister 1 + flagState.variableRegister 0xF > 255
              then 1 else 0) ∧
        o.cpu.variableRegister 1
          = (flagState.variableRegister 1 + o.cpu.variableRegister 0xF) % 256) ∧
      ((4 : Nat) = 5 →
        o.cpu.variableRegister 0xF
          = (if flagState.variableRegister 0xF > flagState.variableRegister 1 then 0 else 1) ∧
        (o.cpu.variableRegister 1 : Int)
          = ((flagState.variableRegister 1 : Int) - (o.cpu.variableRegister 0xF : Int)) % 256) ∧
      ((4 : Nat) = 7 →
        o.cpu.variableRegister 0xF
          = (if flagState.variableRegister 1 > flagState.variableRegister 0xF then 0 else 1) ∧
        (o.cpu.variableRegister 1 : Int)
          = ((o.cpu.variableRegister 0xF : Int) - (flagState.variableRegister 1 : Int)) % 256) :=
  ⟨by decide, by decide, by decide!, rfl, by decide!, by decide,
    flag_operand_is_new_flag 0 flagState 1 4 (by decide) (by decide) (by decide!) rfl
      (by decide!) (by decide)⟩

/-- C19 (counterexample): `8116` with V1 = 2 has X = Y = 1, X different from
0xF, and after the `Cycle` VY holds 1, not its old value 2. -/
theorem shift_same_register_changes_VY :
    holdsWord shiftSelfState.ramMemory shiftSelfState.programCounter
      (0x8000 + 256 * (1 : Fin 16).val + 16 * (1 : Fin 16).val + 6) ∧
    shiftSelfState.variableRegister 1 = 2 ∧
    (afterCycles 1 shiftSelfState).map (fun c => c.variableRegister 1) = some 1 := by
  decide!

/-- C19 (amended): for X different from 0xF, every Y and every byte value v of
VX: after `8XY6`, VF = v mod 2, VX = v div 2 and v = 2·VX + VF; after `8XYE`,
VF = v div 128 (the top bit, 0 or 1), VX = 2v mod 256 and 2v = 256·VF + VX.  The value of VY plays no
part, VY is unchanged when Y differs from X and from 0xF, and PC is advanced
by 2. -/
theorem shift_sets_flag (rnd : Nat) (s : CPU) (X Y : Fin 16) (k : Nat)
    (hk : k = 6 ∨ k = 0xE) (hX : X ≠ 0xF)
    (hlen : s.ramMemory.length ≤ 65535) (hb : s.beeper = true)
    (hw : holdsWord s.ramMemory s.programCounter (0x8000 + 256 * X.val + 16 * Y.val + k))
    (hv : s.variableRegister X < 256) :
    ∃ o, Cycle rnd s = .ok o ∧
      (k = 6 →
        o.cpu.variableRegister 0xF = s.variableRegister X % 2 ∧
        o.cpu.variableRegister X = s.variableRegister X / 2 ∧
        s.variableRegister X = 2 * o.cpu.variableRegister X + o.cpu.variableRegister 0xF) ∧
      (k = 0xE →
        o.cpu.variableRegister 0xF = s.variableRegister X / 128 ∧
        o.cpu.variableRegister 0xF ≤ 1 ∧
        o.cpu.variableRegister X = (2 * s.variableRegister X) % 256 ∧
        2 * s.variableRegister X
          = 256 * o.cpu.variableRegister 0xF + o.cpu.variableRegister X) ∧
      (Y ≠ X → Y ≠ 0xF → o.cpu.variableRegister Y = s.variableRegister Y) ∧
      o.cpu.programCounter = s.programCounter + 2 := by
  have hXF : (0xF : Fin 16) ≠ X := fun h => hX h.symm
  have hand : s.variableRegister X &&& 0x1 = s.variableRegister X % 2 :=
    Nat.and_one_is_mod _
  have hshr1 : s.variableRegister X >>> 1 = s.variableRegister X / 2 := by
    rw [Nat.shiftRight_eq_div_pow]
  have hshr7 : s.variableRegister X >>> 7 = s.variableRegister X / 128 := by
    rw [Nat.shiftRight_eq_div_pow]
  have hshl : s.variableRegister X <<< 1 = 2 * s.variableRegister X := by
    rw [Nat.shiftLeft_eq]; omega
  rcases hk with rfl | rfl
  · refine ⟨_, Cycle_8XYk rnd s X Y 6 (by decide) hlen hb hw _
      (exec8_67E s X Y 6 (Or.inl rfl)), ?_, fun h => absurd h (by decide), ?_, rfl⟩
    · intro _
      simp only [setReg, hXF, hX, if_false, if_true, hand, hshr1]
      refine ⟨trivial, trivial, ?_⟩
      omega
    · intro hYX hYF
      simp only [setReg, hYX, hYF, if_false, if_true]
  · refine ⟨_, Cycle_8XYk rnd s X Y 0xE (by decide) hlen hb hw _
      (exec8_67E s X Y 0xE (Or.inr (Or.inr rfl))), fun h => absurd h (by decide), ?_, ?_, rfl⟩
    · intro _
      simp only [setReg, hXF, hX, if_false, if_true, hshr7, hshl,
        show ¬((0xE : Nat) = 6) by decide, show ¬((0xE : Nat) = 7) by decide]
      refine ⟨trivial, ?_, trivial, ?_⟩
      · omega
      · omega
    · intro hYX hYF
      simp only [setReg, hYX, hYF, if_false, if_true,
        show ¬((0xE : Nat) = 6) by decide, show ¬((0xE : Nat) = 7) by decide]

/-- Witness of C19: `8126` with V1 = 5 and V2 = 9. -/
theorem shift_sets_flag_witness :
    ((6 : Nat) = 6 ∨ (6 : Nat) = 0xE) ∧ (1 : Fin 16) ≠ 0xF ∧
    shiftState.ramMemory.length ≤ 65535 ∧ shiftState.beeper = true ∧
    holdsWord shiftState.ramMemory shiftState.programCounter
      (0x8000 + 256 * (1 : Fin 16).val + 16 * (2 : Fin 16).val + 6) ∧
    shiftState.variableRegister 1 < 256 ∧
    ∃ o, Cycle 0 shiftState = .ok o ∧
      ((6 : Nat) = 6 →
        o.cpu.variableRegister 0xF = shiftState.variableRegister 1 % 2 ∧
        o.cpu.variableRegister 1 = shiftState.variableRegister 1 / 2 ∧
        shiftState.variableRegister 1
          = 2 * o.cpu.variableRegister 1 + o.cpu.variableRegister 0xF) ∧
      ((6 : Nat) = 0xE →
        o.cpu.variableRegister 0xF = shiftState.variableRegister 1 / 128 ∧
        o.cpu.variableRegister 0xF ≤ 1 ∧
        o.cpu.variableRegister 1 = (2 * shiftState.variableRegister 1) % 256 ∧
        2 * shiftState.variableRegister 1
          = 256 * o.cpu.variableRegister 0xF + o.cpu.variableRegister 1) ∧
      ((2 : Fin 16) ≠ 1 → (2 : Fin 16) ≠ 0xF →
        o.cpu.variableRegister 2 = shiftState.variableRegister 2) ∧
      o.cpu.programCounter = shiftState.programCounter + 2 :=
  ⟨by decide, by decide, by decide!, rfl, by decide!, by decide,
    shift_sets_flag 0 shiftState 1 2 6 (by decide) (by decide) (by decide!) rfl (by decide!)
      (by decide)⟩

/-- C20: in every state reachable from `InitCPU` on a zero-valued CPU by calls
of `Cycle`, `Key`, `Draw` and `LoadProgram` that do not panic, every display
cell holds 0 or 1. -/
theorem reachable_display_binary (s : CPU) (h : Reachable s) :
    ∀ r c, s.display r c = 0 ∨ s.display r c = 1 := by
  show BinaryScreen s.display
  induction h with
  | init options s hinit =>
    unfold InitCPU at hinit
    simp only [] at hinit
    split at hinit
    · cases hinit
      exact fun _ _ => Or.inl rfl
    · cases hinit
  | cycle rnd s o _ ho ih => exact Cycle_binary rnd s o ho ih
  | key num down s s' _ hk ih =>
    rw [Key_display s s' num down hk]
    exact ih
  | draw s _ ih => exact ih
  | load buffer s s' err _ hl ih =>
    rw [LoadProgram_display s s' buffer err hl]
    exact ih

/-- Witness of C20: the state after `InitCPU` with the default options,
`LoadProgram` of the bytes `00E0`, `Key(3, true)`, `Draw()` and one `Cycle`. -/
theorem reachable_display_binary_witness :
    ∃ s1 s2 o, LoadProgram (loaded []) [0x00, 0xE0] = .ok (s1, none) ∧
      Key s1 3 true = .ok s2 ∧ Cycle 0 (Draw s2).2 = .ok o ∧
      Reachable o.cpu ∧ ∀ r c, o.cpu.display r c = 0 ∨ o.cpu.display r c = 1 := by
  obtain ⟨m, hload, hlen, hcopy, -⟩ :=
    (LoadProgram_spec (loaded []) [0x00, 0xE0]).2.1 (by decide!)
  have hlen' : m.length ≤ 65535 := by
    rw [hlen]
    decide!
  have hword : holdsWord m 0x200 0x00E0 :=
    ⟨hcopy 0 (by decide), hcopy 1 (by decide)⟩
  have hcyc := Cycle_00E0 0
    (Draw { loaded [] with ramMemory := m, key := setReg (loaded []).key 3 1 }).2
    hlen' rfl hword
  have hreach : Reachable
      (Draw { loaded [] with ramMemory := m, key := setReg (loaded []).key 3 1 }).2 :=
    Reachable.draw _ (Reachable.key 3 true _ _
      (Reachable.load _ _ _ _ (Reachable.init _ _ InitCPU_default) hload) rfl)
  exact ⟨_, _, _, hload, rfl, hcyc, Reachable.cycle 0 _ _ hreach hcyc,
    reachable_display_binary _ (Reachable.cycle 0 _ _ hreach hcyc)⟩

end Chipper
